import Mathlib

/-!
# blaze-lib: admissibility predicates of `UniLowerMatrix`

A shallow embedding of the eight `tryAssign` overloads of
`blaze/math/adaptors/UniLowerMatrix.h`, which predict whether the assignment of a
vector or matrix at an offset of a lower unitriangular matrix keeps its invariant.

Indices are `size_t` in the source and natural numbers here.  Every subtraction the
source evaluates has a minuend at least as large as the subtrahend on the path that
evaluates it, and every sum is bounded by the size of the target, so truncated
subtraction and unbounded addition agree with the machine operations.
-/

namespace blaze

/-! ## Element shims and containers -/

/-- The two element shims used by the predicates, `isDefault` (blaze/math/shims/IsDefault.h)
and `isOne` (blaze/math/shims/IsOne.h).  Both headers are only included by the adaptor, so
the shims of the element type are taken as parameters. -/
structure Shims (α : Type) where
  /-- The element is in default state. -/
  isDefault : α → Bool
  /-- The element is the multiplicative identity. -/
  isOne : α → Bool

/-- Modelled from the spec: the shims for integer elements, which are not part of the
adaptor header; "is default" is comparison with zero and "is multiplicative identity" is
comparison with one. -/
def intShims : Shims Int where
  isDefault := fun v => v == 0
  isOne := fun v => v == 1

/-- A dense vector: `size()` and `operator[]`.  The transpose flag is carried by the
overload that receives the vector. -/
structure DenseVector (α : Type) where
  /-- Number of elements. -/
  size : Nat
  /-- Element access, `operator[]`. -/
  get : Nat → α

/-- A dense matrix: `rows()`, `columns()` and `operator()(i,j)`.  The storage order is
carried by the overload that receives the matrix. -/
structure DenseMatrix (α : Type) where
  /-- Number of rows. -/
  rows : Nat
  /-- Number of columns. -/
  columns : Nat
  /-- Element access, `operator()(i,j)`. -/
  get : Nat → Nat → α

/-- A stored entry of a sparse container: `index()` and `value()`. -/
structure Element (α : Type) where
  /-- Index of the entry inside its vector, row or column. -/
  index : Nat
  /-- Stored value. -/
  value : α

/-- A sparse vector: its size and its stored entries in iteration order.  An iterator is
the position of an entry in `elements`; `begin()` is position `0` and `end()` is the
length of `elements`. -/
structure SparseVector (α : Type) where
  /-- Number of elements, stored or not. -/
  size : Nat
  /-- Stored entries, from `begin()` to `end()`. -/
  elements : List (Element α)

/-- A sparse matrix: `line i` holds the stored entries of row `i` (row-major) or of
column `i` (column-major) in iteration order, from `begin(i)` to `end(i)`. -/
structure SparseMatrix (α : Type) where
  /-- Number of rows. -/
  rows : Nat
  /-- Number of columns. -/
  columns : Nat
  /-- Stored entries of one row (row-major) or one column (column-major). -/
  line : Nat → List (Element α)

/-- The adaptor: it owns the adapted matrix `matrix_`. -/
structure UniLowerMatrix (α : Type) where
  /-- The adapted matrix. -/
  matrix_ : DenseMatrix α

/-- Number of rows of the adaptor, `lhs.rows()`. -/
def UniLowerMatrix.rows {α : Type} (m : UniLowerMatrix α) : Nat := m.matrix_.rows

/-- Number of columns of the adaptor, `lhs.columns()`. -/
def UniLowerMatrix.columns {α : Type} (m : UniLowerMatrix α) : Nat := m.matrix_.columns

/-! ## Loops -/

/-- Runs `body i`, `body (i+1)`, ... for `n` iterations and stops with `false` at the first
iteration whose body is `false`. -/
def loopFrom (body : Nat → Bool) : Nat → Nat → Bool
  | 0, _ => true
  | n + 1, i => if !body i then false else loopFrom body n (i + 1)

/-- The loop `for( size_t i=lo; i<hi; ++i ) { if( !body(i) ) return false; }`: `true` when
the loop runs to its end, `false` when an iteration returns `false`. -/
def forRange (lo hi : Nat) (body : Nat → Bool) : Bool :=
  loopFrom body (hi - lo) lo

/-- Modelled from the spec: `lowerBound` belongs to the sparse storage backend, which is
not part of the adaptor header; it returns the iterator (position) of the first stored
entry whose index is at least `k`, or `end()` when there is none. -/
def lowerBound {α : Type} : List (Element α) → Nat → Nat
  | [], _ => 0
  | e :: es, k => if k ≤ e.index then 0 else lowerBound es k + 1

/-! ## The eight `tryAssign` overloads -/

/-- The overload `tryAssign( lhs, DenseVector<VT,false>, row, column )`: a column vector
whose first element lands at `(row, column)`. -/
def tryAssign_DenseVector_false {α : Type} (E : Shims α) (_lhs : UniLowerMatrix α)
    (rhs : DenseVector α) (row column : Nat) : Bool :=
  if column < row then true
  else
    let containsDiagonal : Bool := decide (column < row + rhs.size)
    let iend : Nat := min (column - row) rhs.size
    if !forRange 0 iend (fun i => E.isDefault (rhs.get i)) then false
    else if containsDiagonal && !E.isOne (rhs.get iend) then false
    else true

/-- The overload `tryAssign( lhs, DenseVector<VT,true>, row, column )`: a row vector whose
first element lands at `(row, column)`. -/
def tryAssign_DenseVector_true {α : Type} (E : Shims α) (_lhs : UniLowerMatrix α)
    (rhs : DenseVector α) (row column : Nat) : Bool :=
  if row ≥ column + rhs.size then true
  else
    let containsDiagonal : Bool := decide (row ≥ column)
    let ibegin : Nat := if !containsDiagonal then 0 else row - column + 1
    if containsDiagonal && !E.isOne (rhs.get (row - column)) then false
    else if !forRange ibegin rhs.size (fun i => E.isDefault (rhs.get i)) then false
    else true

/-- The overload `tryAssign( lhs, SparseVector<VT,false>, row, column )`. -/
def tryAssign_SparseVector_false {α : Type} (E : Shims α) (_lhs : UniLowerMatrix α)
    (rhs : SparseVector α) (row column : Nat) : Bool :=
  if column < row then true
  else
    let containsDiagonal : Bool := decide (column < row + rhs.size)
    let index : Nat := column - row
    let last : Nat := lowerBound rhs.elements index
    let diagonalOk : Bool :=
      match rhs.elements.get? last with
      | none => false
      | some e => if e.index != index || !E.isOne e.value then false else true
    if containsDiagonal && !diagonalOk then false
    else if !(rhs.elements.take last).all (fun e => E.isDefault e.value) then false
    else true

/-- The overload `tryAssign( lhs, SparseVector<VT,true>, row, column )`. -/
def tryAssign_SparseVector_true {α : Type} (E : Shims α) (_lhs : UniLowerMatrix α)
    (rhs : SparseVector α) (row column : Nat) : Bool :=
  if row ≥ column + rhs.size then true
  else
    let containsDiagonal : Bool := decide (row ≥ column)
    let index : Nat := if containsDiagonal then row - column else 0
    let element : Nat := lowerBound rhs.elements index
    let diagonalOk : Bool :=
      match rhs.elements.get? element with
      | none => false
      | some e => if e.index != index || !E.isOne e.value then false else true
    if containsDiagonal && !diagonalOk then false
    else
      let element : Nat := if containsDiagonal then element + 1 else element
      if !(rhs.elements.drop element).all (fun e => E.isDefault e.value) then false
      else true

/-- The overload `tryAssign( lhs, DenseMatrix<MT2,false>, row, column )`: a row-major dense
matrix whose first element lands at `(row, column)`. -/
def tryAssign_DenseMatrix_false {α : Type} (E : Shims α) (_lhs : UniLowerMatrix α)
    (rhs : DenseMatrix α) (row column : Nat) : Bool :=
  let M : Nat := rhs.rows
  let N : Nat := rhs.columns
  if row + 1 ≥ column + N then true
  else
    let iend : Nat := min (column + N - row) M
    forRange 0 iend (fun i =>
      let containsDiagonal : Bool := decide (row + i ≥ column)
      if containsDiagonal && !E.isOne (rhs.get i (row + i - column)) then false
      else
        let jbegin : Nat := if containsDiagonal then row + i - column + 1 else 0
        forRange jbegin N (fun j => E.isDefault (rhs.get i j)))

/-- The overload `tryAssign( lhs, DenseMatrix<MT2,true>, row, column )`: a column-major
dense matrix whose first element lands at `(row, column)`. -/
def tryAssign_DenseMatrix_true {α : Type} (E : Shims α) (_lhs : UniLowerMatrix α)
    (rhs : DenseMatrix α) (row column : Nat) : Bool :=
  let M : Nat := rhs.rows
  let N : Nat := rhs.columns
  if row + 1 ≥ column + N then true
  else
    let jbegin : Nat := if row < column then 0 else row - column
    forRange jbegin N (fun j =>
      let iend : Nat := min (column + j - row) M
      if !forRange 0 iend (fun i => E.isDefault (rhs.get i j)) then false
      else
        let containsDiagonal : Bool := decide (column + j < row + M)
        if containsDiagonal && !E.isOne (rhs.get iend j) then false
        else true)

/-- The overload `tryAssign( lhs, SparseMatrix<MT2,false>, row, column )`: a row-major
sparse matrix, `rhs.line i` is row `i`. -/
def tryAssign_SparseMatrix_false {α : Type} (E : Shims α) (_lhs : UniLowerMatrix α)
    (rhs : SparseMatrix α) (row column : Nat) : Bool :=
  let M : Nat := rhs.rows
  let N : Nat := rhs.columns
  if row + 1 ≥ column + N then true
  else
    let iend : Nat := min (column + N - row) M
    forRange 0 iend (fun i =>
      let containsDiagonal : Bool := decide (row + i ≥ column)
      let index : Nat := if containsDiagonal then row + i - column else 0
      let element : Nat := lowerBound (rhs.line i) index
      let diagonalOk : Bool :=
        match (rhs.line i).get? element with
        | none => false
        | some e => if e.index != index || !E.isOne e.value then false else true
      if containsDiagonal && !diagonalOk then false
      else
        let element : Nat := if containsDiagonal then element + 1 else element
        ((rhs.line i).drop element).all (fun e => E.isDefault e.value))

/-- The overload `tryAssign( lhs, SparseMatrix<MT2,true>, row, column )`: a column-major
sparse matrix, `rhs.line j` is column `j`. -/
def tryAssign_SparseMatrix_true {α : Type} (E : Shims α) (_lhs : UniLowerMatrix α)
    (rhs : SparseMatrix α) (row column : Nat) : Bool :=
  let M : Nat := rhs.rows
  let N : Nat := rhs.columns
  if row + 1 ≥ column + N then true
  else
    let jbegin : Nat := if row < column then 0 else row - column
    forRange jbegin N (fun j =>
      let containsDiagonal : Bool := decide (column + j < row + M)
      let index : Nat := column + j - row
      let last : Nat := lowerBound (rhs.line j) (min index M)
      let diagonalOk : Bool :=
        match (rhs.line j).get? last with
        | none => false
        | some e => if e.index != index || !E.isOne e.value then false else true
      if containsDiagonal && !diagonalOk then false
      else ((rhs.line j).take last).all (fun e => E.isDefault e.value))

end blaze

namespace blaze

/-! ## Specification-side notions -/

/-- The unit-lower invariant of a matrix: square, default (zero) strictly above the
diagonal and one on the diagonal. -/
def IsUniLowerInv {α : Type} (E : Shims α) (m : DenseMatrix α) : Prop :=
  m.rows = m.columns ∧
    ∀ i j, i < m.rows → j < m.columns →
      (i < j → E.isDefault (m.get i j) = true) ∧ (i = j → E.isOne (m.get i j) = true)

/-- The matrix obtained by overwriting the positions `(row+k, column)`, `k < rhs.size`,
with the elements of a column vector. -/
def overwriteColumnVector {α : Type} (m : DenseMatrix α) (rhs : DenseVector α)
    (row column : Nat) : DenseMatrix α where
  rows := m.rows
  columns := m.columns
  get := fun i j =>
    if j = column ∧ row ≤ i ∧ i < row + rhs.size then rhs.get (i - row) else m.get i j

/-- The matrix obtained by overwriting the positions `(row, column+k)`, `k < rhs.size`,
with the elements of a row vector. -/
def overwriteRowVector {α : Type} (m : DenseMatrix α) (rhs : DenseVector α)
    (row column : Nat) : DenseMatrix α where
  rows := m.rows
  columns := m.columns
  get := fun i j =>
    if i = row ∧ column ≤ j ∧ j < column + rhs.size then rhs.get (j - column) else m.get i j

/-- The admissibility rule for a block landing at `(row, column)`: every element landing
strictly above the diagonal is default and every element landing on it is one. -/
def BlockAdmissible {α : Type} (E : Shims α) (rhs : DenseMatrix α) (row column : Nat) : Prop :=
  ∀ i j, i < rhs.rows → j < rhs.columns →
    (row + i < column + j → E.isDefault (rhs.get i j) = true) ∧
    (row + i = column + j → E.isOne (rhs.get i j) = true)

/-- The rule of a column vector landing at `(row, column)`: the element at absolute row
`column` is one, the elements at absolute rows below `column` are default, the others are
unconstrained. -/
def ColumnVectorRule {α : Type} (E : Shims α) (rhs : DenseVector α) (row column : Nat) :
    Prop :=
  ∀ k, k < rhs.size →
    (row + k < column → E.isDefault (rhs.get k) = true) ∧
    (row + k = column → E.isOne (rhs.get k) = true)

/-- The rule of a row vector landing at `(row, column)` in the wording of the
specification: the elements at absolute columns below `row` are default, the element at
absolute column `row` is one, the elements at absolute columns above `row` are
unconstrained. -/
def RowVectorRuleAsStated {α : Type} (E : Shims α) (rhs : DenseVector α) (row column : Nat) :
    Prop :=
  ∀ k, k < rhs.size →
    (column + k < row → E.isDefault (rhs.get k) = true) ∧
    (column + k = row → E.isOne (rhs.get k) = true)

/-- The rule of a row vector landing at `(row, column)` with the strict upper part on the
side the invariant has it: the elements at absolute columns above `row` are default, the
element at absolute column `row` is one, the elements at absolute columns below `row` are
unconstrained. -/
def RowVectorRule {α : Type} (E : Shims α) (rhs : DenseVector α) (row column : Nat) : Prop :=
  ∀ k, k < rhs.size →
    (row < column + k → E.isDefault (rhs.get k) = true) ∧
    (row = column + k → E.isOne (rhs.get k) = true)

/-- Row `i` of a dense matrix as a (row) vector. -/
def rowOf {α : Type} (rhs : DenseMatrix α) (i : Nat) : DenseVector α where
  size := rhs.columns
  get := fun j => rhs.get i j

/-- Column `j` of a dense matrix as a (column) vector. -/
def columnOf {α : Type} (rhs : DenseMatrix α) (j : Nat) : DenseVector α where
  size := rhs.rows
  get := fun i => rhs.get i j

/-- A dense vector given by its list of values; positions past the list read as `d`. -/
def DenseVector.ofList {α : Type} (d : α) (l : List α) : DenseVector α where
  size := l.length
  get := fun i => l.getD i d

/-- A dense matrix given by its list of rows; positions outside the lists read as `d`. -/
def DenseMatrix.ofRows {α : Type} (d : α) (m n : Nat) (l : List (List α)) : DenseMatrix α where
  rows := m
  columns := n
  get := fun i j => (l.getD i []).getD j d

/-- The `n x n` identity matrix over the integers. -/
def identityMatrix (n : Nat) : DenseMatrix Int where
  rows := n
  columns := n
  get := fun i j => if i = j then 1 else 0

/-- The matrix obtained by overwriting the positions `(row+i, column+j)`, `i < rhs.rows`,
`j < rhs.columns`, with the elements of a block. -/
def overwriteBlock {α : Type} (m : DenseMatrix α) (rhs : DenseMatrix α)
    (row column : Nat) : DenseMatrix α where
  rows := m.rows
  columns := m.columns
  get := fun i j =>
    if row ≤ i ∧ i < row + rhs.rows ∧ column ≤ j ∧ j < column + rhs.columns then
      rhs.get (i - row) (j - column)
    else m.get i j

/-- The value a list of stored entries gives to position `i`: the value of the stored
entry with that index, and `z` (the value of an absent entry) when there is none. -/
def lookup {α : Type} (z : α) : List (Element α) → Nat → α
  | [], _ => z
  | e :: es, i => if e.index = i then e.value else lookup z es i

/-- Stored entries are well formed below `bound`: indices strictly increasing in iteration
order and all below `bound`. -/
def WellFormed {α : Type} (es : List (Element α)) (bound : Nat) : Prop :=
  es.Pairwise (fun a b => a.index < b.index) ∧ ∀ e, e ∈ es → e.index < bound

/-- Dense expansion of a sparse vector, absent entries reading as `z`. -/
def SparseVector.expand {α : Type} (z : α) (v : SparseVector α) : DenseVector α where
  size := v.size
  get := fun i => lookup z v.elements i

/-- Dense expansion of a row-major sparse matrix: `line i` is row `i`. -/
def SparseMatrix.expandRowMajor {α : Type} (z : α) (m : SparseMatrix α) : DenseMatrix α where
  rows := m.rows
  columns := m.columns
  get := fun i j => lookup z (m.line i) j

/-- Dense expansion of a column-major sparse matrix: `line j` is column `j`. -/
def SparseMatrix.expandColumnMajor {α : Type} (z : α) (m : SparseMatrix α) :
    DenseMatrix α where
  rows := m.rows
  columns := m.columns
  get := fun i j => lookup z (m.line j) i

/-- A sparse vector given by its size and its stored (index, value) pairs. -/
def SparseVector.ofList {α : Type} (n : Nat) (l : List (Nat × α)) : SparseVector α where
  size := n
  elements := l.map (fun p => ⟨p.1, p.2⟩)

/-- A sparse matrix given by its shape and, line by line, its stored (index, value)
pairs. -/
def SparseMatrix.ofLines {α : Type} (m n : Nat) (l : List (List (Nat × α))) :
    SparseMatrix α where
  rows := m
  columns := n
  line := fun i => (l.getD i []).map (fun p => ⟨p.1, p.2⟩)

/-- The failure a rejected write reports (`std::invalid_argument` in the library). -/
inductive AssignError where
  | invariantViolation
  deriving DecidableEq, Repr

/-- Modelled from the spec: the guarded write of the adaptor facade, whose code (the
assignment operators and views that call `tryAssign`) is not part of the adaptor header.
The predicate is evaluated first; the storage is replaced by the written matrix only when
the predicate holds, otherwise an invariant-violation error is reported and the storage
is the one before the call. -/
def guardedWrite {α : Type} (admissible : Bool) (lhs : UniLowerMatrix α)
    (written : DenseMatrix α) : Except AssignError Unit × UniLowerMatrix α :=
  if admissible then (Except.ok (), ⟨written⟩)
  else (Except.error AssignError.invariantViolation, lhs)

end blaze

namespace blaze

/-! ## Compile-time traits of `UniLowerMatrix`

The trait class templates are functions from types to types.  Types are described by
expressions; a partial specialisation of a trait is one arm of a match on the type
expressions of its arguments, and its `Type` typedef is the value of the arm. -/

/-- Type expressions for the class templates the trait specialisations of the adaptor
header mention.  `SO` is the storage order, `TF` the transpose flag, `DF` the density
flag and `NF` the numeric flag of the template argument lists. -/
inductive TypeExpr where
  /-- A numeric type, one that passes `BLAZE_CONSTRAINT_MUST_BE_NUMERIC_TYPE`. -/
  | numeric (tag : Nat)
  /-- Any type the header has no pattern for. -/
  | other (tag : Nat)
  /-- The class template `StaticVector<T,N,TF>`. -/
  | StaticVector (T : TypeExpr) (N : Nat) (TF : Bool)
  /-- The class template `HybridVector<T,N,TF>`. -/
  | HybridVector (T : TypeExpr) (N : Nat) (TF : Bool)
  /-- The class template `DynamicVector<T,TF>`. -/
  | DynamicVector (T : TypeExpr) (TF : Bool)
  /-- The class template `CompressedVector<T,TF>`. -/
  | CompressedVector (T : TypeExpr) (TF : Bool)
  /-- The class template `StaticMatrix<T,M,N,SO>`. -/
  | StaticMatrix (T : TypeExpr) (M N : Nat) (SO : Bool)
  /-- The class template `HybridMatrix<T,M,N,SO>`. -/
  | HybridMatrix (T : TypeExpr) (M N : Nat) (SO : Bool)
  /-- The class template `DynamicMatrix<T,SO>`. -/
  | DynamicMatrix (T : TypeExpr) (SO : Bool)
  /-- The class template `CompressedMatrix<T,SO>`. -/
  | CompressedMatrix (T : TypeExpr) (SO : Bool)
  /-- The adaptor `SymmetricMatrix<MT,SO,DF,NF>`. -/
  | SymmetricMatrix (MT : TypeExpr) (SO DF NF : Bool)
  /-- The adaptor `LowerMatrix<MT,SO,DF>`. -/
  | LowerMatrix (MT : TypeExpr) (SO DF : Bool)
  /-- The adaptor `UniLowerMatrix<MT,SO,DF>`. -/
  | UniLowerMatrix (MT : TypeExpr) (SO DF : Bool)
  deriving DecidableEq, Repr

/-- The trait class templates as the whole library resolves them, and the two type traits
that give the adaptors their default template arguments.  The header
blaze/math/adaptors/UniLowerMatrix.h only adds specialisations to these templates and
refers back to them for the adapted types, so they are taken as parameters. -/
structure Library where
  /-- The member `AddTrait<T1,T2>::Type`. -/
  AddTrait : TypeExpr → TypeExpr → TypeExpr
  /-- The member `SubTrait<T1,T2>::Type`. -/
  SubTrait : TypeExpr → TypeExpr → TypeExpr
  /-- The member `MultTrait<T1,T2>::Type`. -/
  MultTrait : TypeExpr → TypeExpr → TypeExpr
  /-- The member `DivTrait<T1,T2>::Type`. -/
  DivTrait : TypeExpr → TypeExpr → TypeExpr
  /-- The member `SubmatrixTrait<MT>::Type`. -/
  SubmatrixTrait : TypeExpr → TypeExpr
  /-- The member `RowTrait<MT>::Type`. -/
  RowTrait : TypeExpr → TypeExpr
  /-- The member `ColumnTrait<MT>::Type`. -/
  ColumnTrait : TypeExpr → TypeExpr
  /-- The value `IsColumnMajorMatrix<MT>::value`, default of the `SO` argument of an
  adaptor. -/
  IsColumnMajorMatrix : TypeExpr → Bool
  /-- The value `IsDenseMatrix<MT>::value`, default of the `DF` argument of an adaptor. -/
  IsDenseMatrix : TypeExpr → Bool

/-- The type `LowerMatrix< MT >`, the storage order and density flag taking their default
template arguments. -/
def Library.lowerMatrix (L : Library) (MT : TypeExpr) : TypeExpr :=
  TypeExpr.LowerMatrix MT (L.IsColumnMajorMatrix MT) (L.IsDenseMatrix MT)

/-- The type `UniLowerMatrix< MT >`, the storage order and density flag taking their default
template arguments. -/
def Library.uniLowerMatrix (L : Library) (MT : TypeExpr) : TypeExpr :=
  TypeExpr.UniLowerMatrix MT (L.IsColumnMajorMatrix MT) (L.IsDenseMatrix MT)

/-- The `AddTrait` specialisations of the header: the `Type` of the specialisation that
matches the two operands, `none` when the header has no specialisation for them. -/
def AddTrait (L : Library) : TypeExpr → TypeExpr → Option TypeExpr
  | .UniLowerMatrix MT _ _, .StaticMatrix T M N SO2 =>
      some (L.AddTrait MT (.StaticMatrix T M N SO2))
  | .StaticMatrix T M N SO1, .UniLowerMatrix MT _ _ =>
      some (L.AddTrait (.StaticMatrix T M N SO1) MT)
  | .UniLowerMatrix MT _ _, .HybridMatrix T M N SO2 =>
      some (L.AddTrait MT (.HybridMatrix T M N SO2))
  | .HybridMatrix T M N SO1, .UniLowerMatrix MT _ _ =>
      some (L.AddTrait (.HybridMatrix T M N SO1) MT)
  | .UniLowerMatrix MT _ _, .DynamicMatrix T SO2 =>
      some (L.AddTrait MT (.DynamicMatrix T SO2))
  | .DynamicMatrix T SO1, .UniLowerMatrix MT _ _ =>
      some (L.AddTrait (.DynamicMatrix T SO1) MT)
  | .UniLowerMatrix MT _ _, .CompressedMatrix T SO2 =>
      some (L.AddTrait MT (.CompressedMatrix T SO2))
  | .CompressedMatrix T SO1, .UniLowerMatrix MT _ _ =>
      some (L.AddTrait (.CompressedMatrix T SO1) MT)
  | .UniLowerMatrix MT1 _ _, .SymmetricMatrix MT2 _ _ _ => some (L.AddTrait MT1 MT2)
  | .SymmetricMatrix MT1 _ _ _, .UniLowerMatrix MT2 _ _ => some (L.AddTrait MT1 MT2)
  | .UniLowerMatrix MT1 _ _, .LowerMatrix MT2 _ _ => some (L.lowerMatrix (L.AddTrait MT1 MT2))
  | .LowerMatrix MT1 _ _, .UniLowerMatrix MT2 _ _ => some (L.lowerMatrix (L.AddTrait MT1 MT2))
  | .UniLowerMatrix MT1 _ _, .UniLowerMatrix MT2 _ _ =>
      some (L.lowerMatrix (L.AddTrait MT1 MT2))
  | _, _ => none

/-- The `SubTrait` specialisations of the header: the `Type` of the specialisation that
matches the two operands, `none` when the header has no specialisation for them. -/
def SubTrait (L : Library) : TypeExpr → TypeExpr → Option TypeExpr
  | .UniLowerMatrix MT _ _, .StaticMatrix T M N SO2 =>
      some (L.SubTrait MT (.StaticMatrix T M N SO2))
  | .StaticMatrix T M N SO1, .UniLowerMatrix MT _ _ =>
      some (L.SubTrait (.StaticMatrix T M N SO1) MT)
  | .UniLowerMatrix MT _ _, .HybridMatrix T M N SO2 =>
      some (L.SubTrait MT (.HybridMatrix T M N SO2))
  | .HybridMatrix T M N SO1, .UniLowerMatrix MT _ _ =>
      some (L.SubTrait (.HybridMatrix T M N SO1) MT)
  | .UniLowerMatrix MT _ _, .DynamicMatrix T SO2 =>
      some (L.SubTrait MT (.DynamicMatrix T SO2))
  | .DynamicMatrix T SO1, .UniLowerMatrix MT _ _ =>
      some (L.SubTrait (.DynamicMatrix T SO1) MT)
  | .UniLowerMatrix MT _ _, .CompressedMatrix T SO2 =>
      some (L.SubTrait MT (.CompressedMatrix T SO2))
  | .CompressedMatrix T SO1, .UniLowerMatrix MT _ _ =>
      some (L.SubTrait (.CompressedMatrix T SO1) MT)
  | .UniLowerMatrix MT1 _ _, .SymmetricMatrix MT2 _ _ _ => some (L.SubTrait MT1 MT2)
  | .SymmetricMatrix MT1 _ _ _, .UniLowerMatrix MT2 _ _ => some (L.SubTrait MT1 MT2)
  | .UniLowerMatrix MT1 _ _, .LowerMatrix MT2 _ _ => some (L.lowerMatrix (L.SubTrait MT1 MT2))
  | .LowerMatrix MT1 _ _, .UniLowerMatrix MT2 _ _ => some (L.lowerMatrix (L.SubTrait MT1 MT2))
  | .UniLowerMatrix MT1 _ _, .UniLowerMatrix MT2 _ _ =>
      some (L.lowerMatrix (L.SubTrait MT1 MT2))
  | _, _ => none

/-- The `MultTrait` specialisations of the header: the `Type` of the most specialised
specialisation that matches the two operands.  The two specialisations for an arbitrary
second or first type `T` hold the constraint `BLAZE_CONSTRAINT_MUST_BE_NUMERIC_TYPE( T )`, so
they give a type for numeric `T` only; `none` when the header resolves no type. -/
def MultTrait (L : Library) : TypeExpr → TypeExpr → Option TypeExpr
  | .UniLowerMatrix MT _ _, .numeric t => some (L.lowerMatrix (L.MultTrait MT (.numeric t)))
  | .numeric t, .UniLowerMatrix MT _ _ => some (L.lowerMatrix (L.MultTrait (.numeric t) MT))
  | .UniLowerMatrix MT _ _, .StaticVector T N false =>
      some (L.MultTrait MT (.StaticVector T N false))
  | .StaticVector T N true, .UniLowerMatrix MT _ _ =>
      some (L.MultTrait (.StaticVector T N true) MT)
  | .UniLowerMatrix MT _ _, .HybridVector T N false =>
      some (L.MultTrait MT (.HybridVector T N false))
  | .HybridVector T N true, .UniLowerMatrix MT _ _ =>
      some (L.MultTrait (.HybridVector T N true) MT)
  | .UniLowerMatrix MT _ _, .DynamicVector T false =>
      some (L.MultTrait MT (.DynamicVector T false))
  | .DynamicVector T true, .UniLowerMatrix MT _ _ =>
      some (L.MultTrait (.DynamicVector T true) MT)
  | .UniLowerMatrix MT _ _, .CompressedVector T false =>
      some (L.MultTrait MT (.CompressedVector T false))
  | .CompressedVector T true, .UniLowerMatrix MT _ _ =>
      some (L.MultTrait (.CompressedVector T true) MT)
  | .UniLowerMatrix MT _ _, .StaticMatrix T M N SO2 =>
      some (L.MultTrait MT (.StaticMatrix T M N SO2))
  | .StaticMatrix T M N SO1, .UniLowerMatrix MT _ _ =>
      some (L.MultTrait (.StaticMatrix T M N SO1) MT)
  | .UniLowerMatrix MT _ _, .HybridMatrix T M N SO2 =>
      some (L.MultTrait MT (.HybridMatrix T M N SO2))
  | .HybridMatrix T M N SO1, .UniLowerMatrix MT _ _ =>
      some (L.MultTrait (.HybridMatrix T M N SO1) MT)
  | .UniLowerMatrix MT _ _, .DynamicMatrix T SO2 =>
      some (L.MultTrait MT (.DynamicMatrix T SO2))
  | .DynamicMatrix T SO1, .UniLowerMatrix MT _ _ =>
      some (L.MultTrait (.DynamicMatrix T SO1) MT)
  | .UniLowerMatrix MT _ _, .CompressedMatrix T SO2 =>
      some (L.MultTrait MT (.CompressedMatrix T SO2))
  | .CompressedMatrix T SO1, .UniLowerMatrix MT _ _ =>
      some (L.MultTrait (.CompressedMatrix T SO1) MT)
  | .UniLowerMatrix MT1 _ _, .SymmetricMatrix MT2 _ _ _ => some (L.MultTrait MT1 MT2)
  | .SymmetricMatrix MT1 _ _ _, .UniLowerMatrix MT2 _ _ => some (L.MultTrait MT1 MT2)
  | .UniLowerMatrix MT1 _ _, .LowerMatrix MT2 _ _ =>
      some (L.lowerMatrix (L.MultTrait MT1 MT2))
  | .LowerMatrix MT1 _ _, .UniLowerMatrix MT2 _ _ =>
      some (L.lowerMatrix (L.MultTrait MT1 MT2))
  | .UniLowerMatrix MT1 _ _, .UniLowerMatrix MT2 _ _ =>
      some (L.uniLowerMatrix (L.MultTrait MT1 MT2))
  | _, _ => none

/-- The `DivTrait` specialisation of the header, `DivTrait< UniLowerMatrix<MT,SO,DF>, T >`
with the constraint `BLAZE_CONSTRAINT_MUST_BE_NUMERIC_TYPE( T )`. -/
def DivTrait (L : Library) : TypeExpr → TypeExpr → Option TypeExpr
  | .UniLowerMatrix MT _ _, .numeric t => some (L.lowerMatrix (L.DivTrait MT (.numeric t)))
  | _, _ => none

/-- The `SubmatrixTrait` specialisation of the header. -/
def SubmatrixTrait (L : Library) : TypeExpr → Option TypeExpr
  | .UniLowerMatrix MT _ _ => some (L.SubmatrixTrait MT)
  | _ => none

/-- The `RowTrait` specialisation of the header. -/
def RowTrait (L : Library) : TypeExpr → Option TypeExpr
  | .UniLowerMatrix MT _ _ => some (L.RowTrait MT)
  | _ => none

/-- The `ColumnTrait` specialisation of the header. -/
def ColumnTrait (L : Library) : TypeExpr → Option TypeExpr
  | .UniLowerMatrix MT _ _ => some (L.ColumnTrait MT)
  | _ => none

/-- The structural kinds of the specification. -/
inductive Kind where
  | Unconstrained
  | Symmetric
  | Lower
  | UniLower
  | Upper
  | UniUpper
  | Diagonal
  deriving DecidableEq, Repr

/-- The structural kind a type carries: the kind of its outermost adaptor, and
`Unconstrained` for a type that is no adaptor. -/
def kindOf : TypeExpr → Kind
  | .SymmetricMatrix _ _ _ _ => Kind.Symmetric
  | .LowerMatrix _ _ _ => Kind.Lower
  | .UniLowerMatrix _ _ _ => Kind.UniLower
  | _ => Kind.Unconstrained

/-- The partner types of the operand-symmetry property: a plain matrix (static, hybrid,
dynamic or compressed), a symmetric, a lower or a unilower matrix. -/
def isMatrixPartner : TypeExpr → Bool
  | .StaticMatrix _ _ _ _ => true
  | .HybridMatrix _ _ _ _ => true
  | .DynamicMatrix _ _ => true
  | .CompressedMatrix _ _ => true
  | .SymmetricMatrix _ _ _ _ => true
  | .LowerMatrix _ _ _ => true
  | .UniLowerMatrix _ _ _ => true
  | _ => false

/-- A concrete library for examples: every binary trait gives a row-major dynamic matrix
over the numeric type 0, every extraction trait a dynamic vector or matrix, and every type
counts as row-major and dense. -/
def sampleLibrary : Library where
  AddTrait := fun _ _ => TypeExpr.DynamicMatrix (TypeExpr.numeric 0) false
  SubTrait := fun _ _ => TypeExpr.DynamicMatrix (TypeExpr.numeric 0) false
  MultTrait := fun _ _ => TypeExpr.DynamicMatrix (TypeExpr.numeric 0) false
  DivTrait := fun _ _ => TypeExpr.DynamicMatrix (TypeExpr.numeric 0) false
  SubmatrixTrait := fun _ => TypeExpr.DynamicMatrix (TypeExpr.numeric 0) false
  RowTrait := fun _ => TypeExpr.DynamicVector (TypeExpr.numeric 0) true
  ColumnTrait := fun _ => TypeExpr.DynamicVector (TypeExpr.numeric 0) false
  IsColumnMajorMatrix := fun _ => false
  IsDenseMatrix := fun _ => true

end blaze

namespace blaze

/-! ## Value traits, facade operations and the `invcbrt` shim -/

/-- The value traits as the whole library resolves them for the adapted types.  The header
blaze/math/adaptors/UniLowerMatrix.h only adds specialisations for the adaptor, so the
values for the other types are taken as parameters. -/
structure ValueTraits where
  /-- The value `Rows<T>::value`. -/
  Rows : TypeExpr → Nat
  /-- The value `Columns<T>::value`. -/
  Columns : TypeExpr → Nat
  /-- The value `IsSquare<T>::value`. -/
  IsSquare : TypeExpr → Bool
  /-- The value `IsResizable<T>::value`. -/
  IsResizable : TypeExpr → Bool

/-- The `Rows` specialisation of the header, which derives from `Rows<MT>`; `none` for a
type the header has no specialisation for. -/
def Rows (V : ValueTraits) : TypeExpr → Option Nat
  | .UniLowerMatrix MT _ _ => some (V.Rows MT)
  | _ => none

/-- The `Columns` specialisation of the header, which derives from `Columns<MT>`. -/
def Columns (V : ValueTraits) : TypeExpr → Option Nat
  | .UniLowerMatrix MT _ _ => some (V.Columns MT)
  | _ => none

/-- The `IsSquare` specialisation of the header, which derives from `TrueType`. -/
def IsSquare : TypeExpr → Option Bool
  | .UniLowerMatrix _ _ _ => some true
  | _ => none

/-- The `IsUniLower` specialisation of the header, which derives from `TrueType`. -/
def IsUniLower : TypeExpr → Option Bool
  | .UniLowerMatrix _ _ _ => some true
  | _ => none

/-- The `IsAdaptor` specialisation of the header, which derives from `TrueType`. -/
def IsAdaptor : TypeExpr → Option Bool
  | .UniLowerMatrix _ _ _ => some true
  | _ => none

/-- The `IsRestricted` specialisation of the header, which derives from `TrueType`. -/
def IsRestricted : TypeExpr → Option Bool
  | .UniLowerMatrix _ _ _ => some true
  | _ => none

/-- The `HasConstDataAccess` specialisation of the header, for dense adaptors only. -/
def HasConstDataAccess : TypeExpr → Option Bool
  | .UniLowerMatrix _ _ true => some true
  | _ => none

/-- The `IsResizable` specialisation of the header, whose value is `IsResizable<MT>::value`. -/
def IsResizable (V : ValueTraits) : TypeExpr → Option Bool
  | .UniLowerMatrix MT _ _ => some (V.IsResizable MT)
  | _ => none

/-- Concrete value traits for examples: a static matrix has its template arguments as
numbers of rows and columns, is square when they agree and is not resizable; a dynamic or
compressed matrix has no compile-time size, is not square at compile time and is
resizable. -/
def sampleValueTraits : ValueTraits where
  Rows := fun t => match t with
    | .StaticMatrix _ M _ _ => M
    | _ => 0
  Columns := fun t => match t with
    | .StaticMatrix _ _ N _ => N
    | _ => 0
  IsSquare := fun t => match t with
    | .StaticMatrix _ M N _ => decide (M = N)
    | _ => false
  IsResizable := fun t => match t with
    | .DynamicMatrix _ _ => true
    | .CompressedMatrix _ _ => true
    | _ => false

/-- The guarantee a structural kind gives about the elements of a square matrix over a
semiring, as the specification states it for each kind. -/
def KindInvariant {n : Nat} {R : Type} [Zero R] [One R] :
    Kind → Matrix (Fin n) (Fin n) R → Prop
  | Kind.Unconstrained, _ => True
  | Kind.Symmetric, A => ∀ i j, A i j = A j i
  | Kind.Lower, A => ∀ i j, i < j → A i j = 0
  | Kind.UniLower, A => ∀ i j, (i < j → A i j = 0) ∧ (i = j → A i j = 1)
  | Kind.Upper, A => ∀ i j, j < i → A i j = 0
  | Kind.UniUpper, A => ∀ i j, (j < i → A i j = 0) ∧ (i = j → A i j = 1)
  | Kind.Diagonal, A => ∀ i j, i ≠ j → A i j = 0

/-- A matrix is the identity matrix of its size: square, one on the diagonal and default
everywhere else. -/
def IsIdentityMatrix {α : Type} (E : Shims α) (m : DenseMatrix α) : Prop :=
  m.rows = m.columns ∧
    ∀ i j, i < m.rows → j < m.columns →
      (i = j → E.isOne (m.get i j) = true) ∧ (i ≠ j → E.isDefault (m.get i j) = true)

/-- Modelled from the spec: `isIdentity` is a function of the library that is not part of
the adaptor header; it tests whether a matrix is the identity matrix of its current size,
that is square with every diagonal element one and every other element default. -/
def isIdentity {α : Type} (E : Shims α) (m : DenseMatrix α) : Bool :=
  if m.rows != m.columns then false
  else
    forRange 0 m.rows (fun i =>
      forRange 0 m.columns (fun j =>
        if i = j then E.isOne (m.get i j) else E.isDefault (m.get i j)))

/-- The overload `isDefault_backend( m, TrueType )` for resizable adapted matrices. -/
def isDefault_backend_TrueType {α : Type} (m : UniLowerMatrix α) : Bool :=
  m.rows == 0

/-- The overload `isDefault_backend( m, FalseType )` for fixed-size adapted matrices. -/
def isDefault_backend_FalseType {α : Type} (E : Shims α) (m : UniLowerMatrix α) : Bool :=
  isIdentity E m.matrix_

/-- The function `isDefault( const UniLowerMatrix& m )`, which dispatches on
`IsResizable<MT>::Type`; the value of that trait for the adapted type is the argument
`isResizable`. -/
def UniLowerMatrix.isDefault {α : Type} (E : Shims α) (isResizable : Bool)
    (m : UniLowerMatrix α) : Bool :=
  if isResizable then isDefault_backend_TrueType m else isDefault_backend_FalseType E m

/-- Modelled from the spec: the member function `clear()` of the adaptor class, whose code
is not part of the adaptor header; it empties the matrix to zero size. -/
def UniLowerMatrix.clearMember {α : Type} (m : UniLowerMatrix α) : UniLowerMatrix α :=
  ⟨⟨0, 0, m.matrix_.get⟩⟩

/-- The function `clear( UniLowerMatrix& m )`, which calls `m.clear()`. -/
def clear {α : Type} (m : UniLowerMatrix α) : UniLowerMatrix α :=
  m.clearMember

/-- Modelled from the spec: the member function `reset( i )` of the adaptor class, whose
code is not part of the adaptor header; it resets row `i` (row-major, `SO = false`) or
column `i` (column-major, `SO = true`) to the default value `z`, except the diagonal
element, which is forced back to the identity `o`. -/
def UniLowerMatrix.resetMember {α : Type} (SO : Bool) (z o : α) (m : UniLowerMatrix α)
    (i : Nat) : UniLowerMatrix α :=
  ⟨⟨m.matrix_.rows, m.matrix_.columns, fun r c =>
    if (if SO then c = i else r = i) then (if r = c then o else z) else m.matrix_.get r c⟩⟩

/-- The function `reset( UniLowerMatrix& m, size_t i )`, which calls `m.reset( i )`. -/
def reset {α : Type} (SO : Bool) (z o : α) (m : UniLowerMatrix α) (i : Nat) :
    UniLowerMatrix α :=
  m.resetMember SO z o i

/-- Modelled from the spec: the test of the unit-lower invariant on a plain matrix, which
the construction from an existing matrix runs and whose code is not part of the adaptor
header: square, one on the diagonal and default strictly above it. -/
def isUniLower {α : Type} (E : Shims α) (p : DenseMatrix α) : Bool :=
  if p.rows != p.columns then false
  else
    forRange 0 p.rows (fun i =>
      if !E.isOne (p.get i i) then false
      else forRange (i + 1) p.columns (fun j => E.isDefault (p.get i j)))

/-- Modelled from the spec: the construction of the adaptor from an existing plain matrix,
whose code is not part of the adaptor header; it validates the unit-lower invariant and
signals an invariant-violation error, constructing nothing, when the matrix does not
satisfy it. -/
def UniLowerMatrix.construct {α : Type} (E : Shims α) (p : DenseMatrix α) :
    Except AssignError (UniLowerMatrix α) :=
  if isUniLower E p then Except.ok ⟨p⟩ else Except.error AssignError.invariantViolation

/-- The shim `invcbrt( T a )` in exact arithmetic over an ordered field, in a build with user
assertions: `none` when `BLAZE_USER_ASSERT( a > T(0) )` fails, the value `T(1) / cbrt( a )`
otherwise.  The function `cbrt` of blaze/math/shims/Cbrt.h is not part of the shim header
and is taken as a parameter. -/
def invcbrt {T : Type} [LinearOrderedField T] (cbrt : T → T) (a : T) : Option T :=
  if a > 0 then some (1 / cbrt a) else none

end blaze

namespace blaze

/-! ## Instrumented translations of the eight `tryAssign` overloads

The same code with every `size_t` subtraction and every element read of a dense right-hand
side checked: the result is a fault when a subtraction would wrap around or a read uses an
index outside the right-hand side. -/

/-- What an instrumented run can detect. -/
inductive Fault where
  /-- An element read with an index outside the container. -/
  | outOfBounds
  /-- An unsigned subtraction whose subtrahend exceeds its minuend. -/
  | wrapAround
  deriving DecidableEq, Repr

/-- The `size_t` subtraction `a - b`, a fault when it would wrap around. -/
def checkedSub (a b : Nat) : Except Fault Nat :=
  if b ≤ a then Except.ok (a - b) else Except.error Fault.wrapAround

/-- The read `v[i]` of a dense vector, a fault when `i` is outside the vector. -/
def DenseVector.read {α : Type} (v : DenseVector α) (i : Nat) : Except Fault α :=
  if i < v.size then Except.ok (v.get i) else Except.error Fault.outOfBounds

/-- The read `m(i,j)` of a dense matrix, a fault when `(i,j)` is outside the matrix. -/
def DenseMatrix.read {α : Type} (m : DenseMatrix α) (i j : Nat) : Except Fault α :=
  if i < m.rows ∧ j < m.columns then Except.ok (m.get i j) else Except.error Fault.outOfBounds

/-- The loop of `loopFrom` with a body that can fault: a fault ends the loop with the fault,
a body that is `false` ends it with `false`. -/
def loopFromChecked (body : Nat → Except Fault Bool) : Nat → Nat → Except Fault Bool
  | 0, _ => Except.ok true
  | n + 1, i =>
    match body i with
    | Except.error f => Except.error f
    | Except.ok false => Except.ok false
    | Except.ok true => loopFromChecked body n (i + 1)

/-- The loop `for( size_t i=lo; i<hi; ++i )` with a body that can fault. -/
def forRangeChecked (lo hi : Nat) (body : Nat → Except Fault Bool) : Except Fault Bool :=
  loopFromChecked body (hi - lo) lo

/-- The overload `tryAssign( lhs, DenseVector<VT,false>, row, column )`, instrumented. -/
def tryAssignChecked_DenseVector_false {α : Type} (E : Shims α) (_lhs : UniLowerMatrix α)
    (rhs : DenseVector α) (row column : Nat) : Except Fault Bool :=
  if column < row then pure true
  else do
    let containsDiagonal : Bool := decide (column < row + rhs.size)
    let iend : Nat := min (← checkedSub column row) rhs.size
    let completed ← forRangeChecked 0 iend (fun i => do
      pure (E.isDefault (← rhs.read i)))
    if !completed then pure false
    else if containsDiagonal then do
      if !E.isOne (← rhs.read iend) then pure false else pure true
    else pure true

/-- The overload `tryAssign( lhs, DenseVector<VT,true>, row, column )`, instrumented. -/
def tryAssignChecked_DenseVector_true {α : Type} (E : Shims α) (_lhs : UniLowerMatrix α)
    (rhs : DenseVector α) (row column : Nat) : Except Fault Bool :=
  if row ≥ column + rhs.size then pure true
  else do
    let containsDiagonal : Bool := decide (row ≥ column)
    let ibegin : Nat ← (if !containsDiagonal then pure 0
      else do pure ((← checkedSub row column) + 1))
    let stop : Bool ← (if containsDiagonal then do
        pure (!E.isOne (← rhs.read (← checkedSub row column)))
      else pure false)
    if stop then pure false
    else do
      let completed ← forRangeChecked ibegin rhs.size (fun i => do
        pure (E.isDefault (← rhs.read i)))
      if !completed then pure false else pure true

/-- The overload `tryAssign( lhs, SparseVector<VT,false>, row, column )`, instrumented. -/
def tryAssignChecked_SparseVector_false {α : Type} (E : Shims α) (_lhs : UniLowerMatrix α)
    (rhs : SparseVector α) (row column : Nat) : Except Fault Bool :=
  if column < row then pure true
  else do
    let containsDiagonal : Bool := decide (column < row + rhs.size)
    let index : Nat ← checkedSub column row
    let last : Nat := lowerBound rhs.elements index
    let diagonalOk : Bool :=
      match rhs.elements.get? last with
      | none => false
      | some e => if e.index != index || !E.isOne e.value then false else true
    if containsDiagonal && !diagonalOk then pure false
    else if !(rhs.elements.take last).all (fun e => E.isDefault e.value) then pure false
    else pure true

/-- The overload `tryAssign( lhs, SparseVector<VT,true>, row, column )`, instrumented. -/
def tryAssignChecked_SparseVector_true {α : Type} (E : Shims α) (_lhs : UniLowerMatrix α)
    (rhs : SparseVector α) (row column : Nat) : Except Fault Bool :=
  if row ≥ column + rhs.size then pure true
  else do
    let containsDiagonal : Bool := decide (row ≥ column)
    let index : Nat ← (if containsDiagonal then checkedSub row column else pure 0)
    let element : Nat := lowerBound rhs.elements index
    let diagonalOk : Bool :=
      match rhs.elements.get? element with
      | none => false
      | some e => if e.index != index || !E.isOne e.value then false else true
    if containsDiagonal && !diagonalOk then pure false
    else
      let element : Nat := if containsDiagonal then element + 1 else element
      if !(rhs.elements.drop element).all (fun e => E.isDefault e.value) then pure false
      else pure true

/-- The overload `tryAssign( lhs, DenseMatrix<MT2,false>, row, column )`, instrumented. -/
def tryAssignChecked_DenseMatrix_false {α : Type} (E : Shims α) (_lhs : UniLowerMatrix α)
    (rhs : DenseMatrix α) (row column : Nat) : Except Fault Bool :=
  let M : Nat := rhs.rows
  let N : Nat := rhs.columns
  if row + 1 ≥ column + N then pure true
  else do
    let iend : Nat := min (← checkedSub (column + N) row) M
    forRangeChecked 0 iend (fun i => do
      let containsDiagonal : Bool := decide (row + i ≥ column)
      let stop : Bool ← (if containsDiagonal then do
          pure (!E.isOne (← rhs.read i (← checkedSub (row + i) column)))
        else pure false)
      if stop then pure false
      else do
        let jbegin : Nat ← (if containsDiagonal then do
            pure ((← checkedSub (row + i) column) + 1)
          else pure 0)
        forRangeChecked jbegin N (fun j => do
          pure (E.isDefault (← rhs.read i j))))

/-- The overload `tryAssign( lhs, DenseMatrix<MT2,true>, row, column )`, instrumented. -/
def tryAssignChecked_DenseMatrix_true {α : Type} (E : Shims α) (_lhs : UniLowerMatrix α)
    (rhs : DenseMatrix α) (row column : Nat) : Except Fault Bool :=
  let M : Nat := rhs.rows
  let N : Nat := rhs.columns
  if row + 1 ≥ column + N then pure true
  else do
    let jbegin : Nat ← (if row < column then pure 0 else checkedSub row column)
    forRangeChecked jbegin N (fun j => do
      let iend : Nat := min (← checkedSub (column + j) row) M
      let completed ← forRangeChecked 0 iend (fun i => do
        pure (E.isDefault (← rhs.read i j)))
      if !completed then pure false
      else
        let containsDiagonal : Bool := decide (column + j < row + M)
        if containsDiagonal then do
          if !E.isOne (← rhs.read iend j) then pure false else pure true
        else pure true)

/-- The overload `tryAssign( lhs, SparseMatrix<MT2,false>, row, column )`, instrumented. -/
def tryAssignChecked_SparseMatrix_false {α : Type} (E : Shims α) (_lhs : UniLowerMatrix α)
    (rhs : SparseMatrix α) (row column : Nat) : Except Fault Bool :=
  let M : Nat := rhs.rows
  let N : Nat := rhs.columns
  if row + 1 ≥ column + N then pure true
  else do
    let iend : Nat := min (← checkedSub (column + N) row) M
    forRangeChecked 0 iend (fun i => do
      let containsDiagonal : Bool := decide (row + i ≥ column)
      let index : Nat ← (if containsDiagonal then checkedSub (row + i) column else pure 0)
      let element : Nat := lowerBound (rhs.line i) index
      let diagonalOk : Bool :=
        match (rhs.line i).get? element with
        | none => false
        | some e => if e.index != index || !E.isOne e.value then false else true
      if containsDiagonal && !diagonalOk then pure false
      else
        let element : Nat := if containsDiagonal then element + 1 else element
        pure (((rhs.line i).drop element).all (fun e => E.isDefault e.value)))

/-- The overload `tryAssign( lhs, SparseMatrix<MT2,true>, row, column )`, instrumented. -/
def tryAssignChecked_SparseMatrix_true {α : Type} (E : Shims α) (_lhs : UniLowerMatrix α)
    (rhs : SparseMatrix α) (row column : Nat) : Except Fault Bool :=
  let M : Nat := rhs.rows
  let N : Nat := rhs.columns
  if row + 1 ≥ column + N then pure true
  else do
    let jbegin : Nat ← (if row < column then pure 0 else checkedSub row column)
    forRangeChecked jbegin N (fun j => do
      let containsDiagonal : Bool := decide (column + j < row + M)
      let index : Nat ← checkedSub (column + j) row
      let last : Nat := lowerBound (rhs.line j) (min index M)
      let diagonalOk : Bool :=
        match (rhs.line j).get? last with
        | none => false
        | some e => if e.index != index || !E.isOne e.value then false else true
      if containsDiagonal && !diagonalOk then pure false
      else pure (((rhs.line j).take last).all (fun e => E.isDefault e.value)))

end blaze

namespace blaze

/-! ## Loops: characterisation -/

theorem loopFrom_eq_true (body : Nat → Bool) (n i : Nat) :
    loopFrom body n i = true ↔ ∀ k, k < n → body (i + k) = true := by
  induction n generalizing i with
  | zero => simp [loopFrom]
  | succ n ih =>
    simp only [loopFrom]
    constructor
    · intro h k hk
      cases hb : body i with
      | false => simp [hb] at h
      | true =>
        simp only [hb, Bool.not_true, Bool.false_eq_true, if_false] at h
        rcases Nat.eq_zero_or_pos k with hk0 | hk0
        · subst hk0; simpa using hb
        · have := (ih (i + 1)).1 h (k - 1) (by omega)
          have e : i + 1 + (k - 1) = i + k := by omega
          rwa [e] at this
    · intro h
      have hb : body i = true := by simpa using h 0 (by omega)
      simp only [hb, Bool.not_true, Bool.false_eq_true, if_false]
      refine (ih (i + 1)).2 (fun k hk => ?_)
      have := h (k + 1) (by omega)
      have e : i + 1 + k = i + (k + 1) := by omega
      rwa [e]

theorem forRange_eq_true (lo hi : Nat) (body : Nat → Bool) :
    forRange lo hi body = true ↔ ∀ i, lo ≤ i → i < hi → body i = true := by
  unfold forRange
  rw [loopFrom_eq_true]
  constructor
  · intro h i h1 h2
    have := h (i - lo) (by omega)
    have e : lo + (i - lo) = i := by omega
    rwa [e] at this
  · intro h k hk
    exact h (lo + k) (by omega) (by omega)

/-! ## Dense vectors -/

theorem denseVector_false_iff {α : Type} (E : Shims α) (lhs : UniLowerMatrix α)
    (rhs : DenseVector α) (row column : Nat) :
    tryAssign_DenseVector_false E lhs rhs row column = true ↔
      ∀ k, k < rhs.size →
        (row + k < column → E.isDefault (rhs.get k) = true) ∧
        (row + k = column → E.isOne (rhs.get k) = true) := by
  unfold tryAssign_DenseVector_false
  by_cases h : column < row
  · simp only [h, if_true, true_iff]
    intro k _
    exact ⟨fun h1 => by omega, fun h1 => by omega⟩
  · simp only [h, if_false]
    have hle : row ≤ column := by omega
    by_cases hloop : forRange 0 (min (column - row) rhs.size) (fun i => E.isDefault (rhs.get i)) = true
    · have hl := (forRange_eq_true _ _ _).1 hloop
      simp only [hloop, Bool.not_true, Bool.false_eq_true, if_false]
      by_cases hd : column < row + rhs.size
      · have hmin : min (column - row) rhs.size = column - row := by omega
        simp only [hd, decide_True, Bool.true_and, hmin]
        cases ho : E.isOne (rhs.get (column - row)) with
        | true =>
          simp only [Bool.not_true, Bool.false_eq_true, if_false, true_iff]
          intro k hk
          refine ⟨fun h1 => hl k (by omega) (by omega), fun h1 => ?_⟩
          have e : k = column - row := by omega
          rw [e]; exact ho
        | false =>
          simp only [Bool.not_false, if_true, Bool.false_eq_true, false_iff]
          intro hall
          have := (hall (column - row) (by omega)).2 (by omega)
          rw [ho] at this
          exact Bool.false_ne_true this
      · simp only [hd, decide_False, Bool.false_and, Bool.false_eq_true, if_false, true_iff]
        intro k hk
        exact ⟨fun h1 => hl k (by omega) (by omega), fun h1 => by omega⟩
    · simp only [hloop, Bool.not_false, if_true, Bool.false_eq_true, false_iff]
      intro hall
      apply hloop
      rw [forRange_eq_true]
      intro i _ hi
      exact (hall i (by omega)).1 (by omega)

theorem denseVector_true_iff {α : Type} (E : Shims α) (lhs : UniLowerMatrix α)
    (rhs : DenseVector α) (row column : Nat) :
    tryAssign_DenseVector_true E lhs rhs row column = true ↔
      ∀ k, k < rhs.size →
        (row < column + k → E.isDefault (rhs.get k) = true) ∧
        (row = column + k → E.isOne (rhs.get k) = true) := by
  unfold tryAssign_DenseVector_true
  by_cases h : row ≥ column + rhs.size
  · simp only [h, if_true, true_iff]
    intro k _
    exact ⟨fun h1 => by omega, fun h1 => by omega⟩
  · simp only [h, if_false]
    by_cases hd : row ≥ column
    · simp only [hd, decide_True, Bool.true_and, Bool.not_true, Bool.false_eq_true, if_false]
      cases ho : E.isOne (rhs.get (row - column)) with
      | false =>
        simp only [Bool.not_false, if_true, Bool.false_eq_true, false_iff]
        intro hall
        have := (hall (row - column) (by omega)).2 (by omega)
        rw [ho] at this
        exact Bool.false_ne_true this
      | true =>
        simp only [Bool.not_true, Bool.false_eq_true, if_false]
        by_cases hloop : forRange (row - column + 1) rhs.size (fun i => E.isDefault (rhs.get i)) = true
        · have hl := (forRange_eq_true _ _ _).1 hloop
          simp only [hloop, Bool.not_true, Bool.false_eq_true, if_false, true_iff]
          intro k hk
          refine ⟨fun h1 => hl k (by omega) hk, fun h1 => ?_⟩
          have e : k = row - column := by omega
          rw [e]; exact ho
        · simp only [hloop, Bool.not_false, if_true, Bool.false_eq_true, false_iff]
          intro hall
          apply hloop
          rw [forRange_eq_true]
          intro i hi1 hi2
          exact (hall i hi2).1 (by omega)
    · simp only [hd, decide_False, Bool.false_and, Bool.false_eq_true, if_false, Bool.not_false,
        if_true]
      by_cases hloop : forRange 0 rhs.size (fun i => E.isDefault (rhs.get i)) = true
      · have hl := (forRange_eq_true _ _ _).1 hloop
        simp only [hloop, Bool.not_true, Bool.false_eq_true, if_false, true_iff]
        intro k hk
        exact ⟨fun _ => hl k (by omega) hk, fun h1 => by omega⟩
      · simp only [hloop, Bool.not_false, if_true, Bool.false_eq_true, false_iff]
        intro hall
        apply hloop
        rw [forRange_eq_true]
        intro i _ hi2
        exact (hall i hi2).1 (by omega)

end blaze

namespace blaze

/-! ## Dense matrices: every line is checked by the vector rule -/

theorem denseMatrix_false_body {α : Type} (E : Shims α) (lhs : UniLowerMatrix α)
    (rhs : DenseMatrix α) (row column i : Nat) (h : row + i < column + rhs.columns) :
    (if decide (row + i ≥ column) && !E.isOne (rhs.get i (row + i - column)) then false
      else forRange (if decide (row + i ≥ column) = true then row + i - column + 1 else 0)
        rhs.columns (fun j => E.isDefault (rhs.get i j))) =
      tryAssign_DenseVector_true E lhs (rowOf rhs i) (row + i) column := by
  have h1 : ¬ (row + i ≥ column + rhs.columns) := by omega
  unfold tryAssign_DenseVector_true
  simp only [rowOf, h1, if_false]
  by_cases hd : row + i ≥ column
  · simp only [hd, decide_True, Bool.true_and, Bool.not_true, Bool.false_eq_true, if_false,
      if_true]
    cases E.isOne (rhs.get i (row + i - column)) <;>
      cases forRange (row + i - column + 1) rhs.columns (fun j => E.isDefault (rhs.get i j)) <;>
      rfl
  · simp only [hd, decide_False, Bool.false_and, Bool.false_eq_true, if_false, Bool.not_false,
      if_true]
    cases forRange 0 rhs.columns (fun j => E.isDefault (rhs.get i j)) <;> rfl

theorem denseMatrix_true_body {α : Type} (E : Shims α) (lhs : UniLowerMatrix α)
    (rhs : DenseMatrix α) (row column j : Nat) (h : row ≤ column + j) :
    (if !forRange 0 (min (column + j - row) rhs.rows) (fun i => E.isDefault (rhs.get i j)) then
        false
      else if decide (column + j < row + rhs.rows) &&
          !E.isOne (rhs.get (min (column + j - row) rhs.rows) j) then false
      else true) =
      tryAssign_DenseVector_false E lhs (columnOf rhs j) row (column + j) := by
  have h1 : ¬ (column + j < row) := by omega
  unfold tryAssign_DenseVector_false
  simp only [columnOf, h1, if_false]

/-- The row-major dense overload accepts exactly when its early exit fires or every row of
the right-hand side passes the row-vector overload at the row's own offset. -/
theorem denseMatrix_false_rows {α : Type} (E : Shims α) (lhs : UniLowerMatrix α)
    (rhs : DenseMatrix α) (row column : Nat) :
    tryAssign_DenseMatrix_false E lhs rhs row column = true ↔
      (row + 1 ≥ column + rhs.columns ∨
        ∀ i, i < rhs.rows →
          tryAssign_DenseVector_true E lhs (rowOf rhs i) (row + i) column = true) := by
  unfold tryAssign_DenseMatrix_false
  by_cases h : row + 1 ≥ column + rhs.columns
  · simp [h]
  · simp only [h, if_false, false_or]
    rw [forRange_eq_true]
    constructor
    · intro hb i hi
      by_cases hlt : row + i < column + rhs.columns
      · rw [← denseMatrix_false_body E lhs rhs row column i hlt]
        exact hb i (Nat.zero_le _) (by omega)
      · unfold tryAssign_DenseVector_true
        have : row + i ≥ column + (rowOf rhs i).size := by
          simp only [rowOf]; omega
        simp [this]
    · intro hv i _ hi
      have hlt : row + i < column + rhs.columns := by omega
      have := hv i (by omega)
      rw [← denseMatrix_false_body E lhs rhs row column i hlt] at this
      exact this

/-- The column-major dense overload accepts exactly when its early exit fires or every
column of the right-hand side passes the column-vector overload at the column's own
offset. -/
theorem denseMatrix_true_columns {α : Type} (E : Shims α) (lhs : UniLowerMatrix α)
    (rhs : DenseMatrix α) (row column : Nat) :
    tryAssign_DenseMatrix_true E lhs rhs row column = true ↔
      (row + 1 ≥ column + rhs.columns ∨
        ∀ j, j < rhs.columns →
          tryAssign_DenseVector_false E lhs (columnOf rhs j) row (column + j) = true) := by
  unfold tryAssign_DenseMatrix_true
  by_cases h : row + 1 ≥ column + rhs.columns
  · simp [h]
  · simp only [h, if_false, false_or]
    rw [forRange_eq_true]
    constructor
    · intro hb j hj
      by_cases hle : row ≤ column + j
      · rw [← denseMatrix_true_body E lhs rhs row column j hle]
        refine hb j ?_ hj
        split <;> omega
      · unfold tryAssign_DenseVector_false
        have : column + j < row := by omega
        simp [this]
    · intro hv j hj1 hj2
      have hle : row ≤ column + j := by
        split at hj1 <;> omega
      have := hv j hj2
      rw [← denseMatrix_true_body E lhs rhs row column j hle] at this
      exact this

/-- All rows pass the row-vector rule exactly when the block is admissible. -/
theorem rows_admissible_iff {α : Type} (E : Shims α) (lhs : UniLowerMatrix α)
    (rhs : DenseMatrix α) (row column : Nat) :
    (∀ i, i < rhs.rows →
      tryAssign_DenseVector_true E lhs (rowOf rhs i) (row + i) column = true) ↔
      BlockAdmissible E rhs row column := by
  simp only [denseVector_true_iff, rowOf, BlockAdmissible]
  constructor
  · intro h i j hi hj
    exact h i hi j hj
  · intro h i hi j hj
    exact h i j hi hj

/-- All columns pass the column-vector rule exactly when the block is admissible. -/
theorem columns_admissible_iff {α : Type} (E : Shims α) (lhs : UniLowerMatrix α)
    (rhs : DenseMatrix α) (row column : Nat) :
    (∀ j, j < rhs.columns →
      tryAssign_DenseVector_false E lhs (columnOf rhs j) row (column + j) = true) ↔
      BlockAdmissible E rhs row column := by
  simp only [denseVector_false_iff, columnOf, BlockAdmissible]
  constructor
  · intro h i j hi hj
    exact h j hj i hi
  · intro h j hj i hi
    exact h i j hi hj

end blaze

namespace blaze

/-! ## Dense right-hand sides: the claims -/

theorem identityMatrix_isUniLowerInv (n : Nat) : IsUniLowerInv intShims (identityMatrix n) := by
  refine ⟨rfl, fun i j _ _ => ⟨fun h => ?_, fun h => ?_⟩⟩
  · have : i ≠ j := by omega
    simp [identityMatrix, intShims, this]
  · simp [identityMatrix, intShims, h]

/-- C1: for a target that satisfies the unit-lower invariant and a dense vector that fits at
the offset, the column-vector overload and the row-vector overload each return true exactly
when the target overwritten with the vector still satisfies the unit-lower invariant. -/
theorem tryAssign_denseVector_iff_overwrite_keeps_invariant {α : Type} (E : Shims α)
    (lhs : UniLowerMatrix α) (v w : DenseVector α) (row column : Nat)
    (hinv : IsUniLowerInv E lhs.matrix_)
    (hrow : row < lhs.rows) (hcol : column < lhs.columns)
    (hv : v.size ≤ lhs.rows - row) (hw : w.size ≤ lhs.columns - column) :
    (tryAssign_DenseVector_false E lhs v row column = true ↔
      IsUniLowerInv E (overwriteColumnVector lhs.matrix_ v row column)) ∧
    (tryAssign_DenseVector_true E lhs w row column = true ↔
      IsUniLowerInv E (overwriteRowVector lhs.matrix_ w row column)) := by
  obtain ⟨hsq, hm⟩ := hinv
  simp only [UniLowerMatrix.rows, UniLowerMatrix.columns] at hrow hcol hv hw
  constructor
  · rw [denseVector_false_iff]
    constructor
    · intro h
      refine ⟨hsq, fun i j hi hj => ?_⟩
      simp only [overwriteColumnVector] at hi hj ⊢
      by_cases hc : j = column ∧ row ≤ i ∧ i < row + v.size
      · simp only [hc, and_self, if_true]
        obtain ⟨h1, h2, h3⟩ := hc
        have := h (i - row) (by omega)
        exact ⟨fun hlt => this.1 (by omega), fun heq => this.2 (by omega)⟩
      · simp only [hc, if_false]
        exact hm i j hi hj
    · intro h k hk
      obtain ⟨_, hall⟩ := h
      have := hall (row + k) column (by simp only [overwriteColumnVector]; omega)
        (by simp only [overwriteColumnVector]; omega)
      have hc : column = column ∧ row ≤ row + k ∧ row + k < row + v.size := by omega
      simp only [overwriteColumnVector, hc, and_self, if_true, Nat.add_sub_cancel_left] at this
      exact this
  · rw [denseVector_true_iff]
    constructor
    · intro h
      refine ⟨hsq, fun i j hi hj => ?_⟩
      simp only [overwriteRowVector] at hi hj ⊢
      by_cases hc : i = row ∧ column ≤ j ∧ j < column + w.size
      · simp only [hc, and_self, if_true]
        obtain ⟨h1, h2, h3⟩ := hc
        have := h (j - column) (by omega)
        exact ⟨fun hlt => this.1 (by omega), fun heq => this.2 (by omega)⟩
      · simp only [hc, if_false]
        exact hm i j hi hj
    · intro h k hk
      obtain ⟨_, hall⟩ := h
      have := hall row (column + k) (by simp only [overwriteRowVector]; omega)
        (by simp only [overwriteRowVector]; omega)
      have hc : row = row ∧ column ≤ column + k ∧ column + k < column + w.size := by omega
      simp only [overwriteRowVector, hc, and_self, if_true, Nat.add_sub_cancel_left] at this
      exact this

/-- C1 at a concrete input: the 3x3 identity as target, the column vector [1,4] and the row
vector [7,1], both landing at offset (1,1). -/
theorem tryAssign_denseVector_iff_overwrite_keeps_invariant_witness :
    (IsUniLowerInv intShims (identityMatrix 3) ∧
      (1 : Nat) < (UniLowerMatrix.mk (identityMatrix 3)).rows ∧
      (1 : Nat) < (UniLowerMatrix.mk (identityMatrix 3)).columns ∧
      (DenseVector.ofList (0 : Int) [1, 4]).size ≤
        (UniLowerMatrix.mk (identityMatrix 3)).rows - 1 ∧
      (DenseVector.ofList (0 : Int) [7, 1]).size ≤
        (UniLowerMatrix.mk (identityMatrix 3)).columns - 1) ∧
    ((tryAssign_DenseVector_false intShims ⟨identityMatrix 3⟩
        (DenseVector.ofList 0 [1, 4]) 1 1 = true ↔
      IsUniLowerInv intShims
        (overwriteColumnVector (identityMatrix 3) (DenseVector.ofList 0 [1, 4]) 1 1)) ∧
    (tryAssign_DenseVector_true intShims ⟨identityMatrix 3⟩
        (DenseVector.ofList 0 [7, 1]) 1 1 = true ↔
      IsUniLowerInv intShims
        (overwriteRowVector (identityMatrix 3) (DenseVector.ofList 0 [7, 1]) 1 1))) :=
  ⟨⟨identityMatrix_isUniLowerInv 3, by decide, by decide, by decide, by decide⟩,
    tryAssign_denseVector_iff_overwrite_keeps_invariant intShims ⟨identityMatrix 3⟩
      (DenseVector.ofList 0 [1, 4]) (DenseVector.ofList 0 [7, 1]) 1 1
      (identityMatrix_isUniLowerInv 3) (by decide) (by decide) (by decide) (by decide)⟩

/-- C2, the code at the failing input: on the 3x3 identity the 2x2 block [[4,9],[5,6]]
landing at (1,0) puts 9 on the diagonal position (1,1), so the block is not admissible and
the overwritten target is not unit-lower, yet the row-major and the column-major overload
both return true through the early exit `row + 1 >= column + N`. -/
theorem tryAssign_denseMatrix_accepts_diagonal_violation :
    tryAssign_DenseMatrix_false intShims ⟨identityMatrix 3⟩
        (DenseMatrix.ofRows 0 2 2 [[4, 9], [5, 6]]) 1 0 = true ∧
    tryAssign_DenseMatrix_true intShims ⟨identityMatrix 3⟩
        (DenseMatrix.ofRows 0 2 2 [[4, 9], [5, 6]]) 1 0 = true ∧
    ¬ BlockAdmissible intShims (DenseMatrix.ofRows 0 2 2 [[4, 9], [5, 6]]) 1 0 ∧
    ¬ IsUniLowerInv intShims
        (overwriteBlock (identityMatrix 3) (DenseMatrix.ofRows 0 2 2 [[4, 9], [5, 6]]) 1 0) := by
  refine ⟨by decide, by decide, fun h => ?_, fun h => ?_⟩
  · have := (h 0 1 (by decide) (by decide)).2 (by decide)
    revert this
    decide
  · have := (h.2 1 1 (by decide) (by decide)).2 rfl
    revert this
    decide

/-- C3: the column-vector overload returns true exactly when every element landing at an
absolute row below `column` is default and the element landing at absolute row `column`
is one; elements landing further down are not constrained. -/
theorem tryAssign_DenseVector_false_iff_columnVectorRule {α : Type} (E : Shims α)
    (lhs : UniLowerMatrix α) (rhs : DenseVector α) (row column : Nat) :
    tryAssign_DenseVector_false E lhs rhs row column = true ↔
      ColumnVectorRule E rhs row column :=
  denseVector_false_iff E lhs rhs row column

/-- C4 as stated fails: on the 2x2 identity the row vector [1,5] at (0,0) satisfies the
stated rule (one at absolute column 0 = row, nothing required right of it) but is
rejected, and the row vector [5,1] at (1,0) violates the stated rule (5 at absolute column
0 < row) but is accepted. -/
theorem tryAssign_DenseVector_true_not_rule_as_stated :
    (tryAssign_DenseVector_true intShims ⟨identityMatrix 2⟩
        (DenseVector.ofList 0 [1, 5]) 0 0 = false ∧
      RowVectorRuleAsStated intShims (DenseVector.ofList 0 [1, 5]) 0 0) ∧
    (tryAssign_DenseVector_true intShims ⟨identityMatrix 2⟩
        (DenseVector.ofList 0 [5, 1]) 1 0 = true ∧
      ¬ RowVectorRuleAsStated intShims (DenseVector.ofList 0 [5, 1]) 1 0) := by
  refine ⟨⟨by decide, fun k hk => ⟨fun h => by omega, fun h => ?_⟩⟩, by decide, fun h => ?_⟩
  · have : k = 0 := by omega
    subst this
    decide
  · have := (h 0 (by decide)).1 (by decide)
    revert this
    decide

/-- C4, amended: the row-vector overload returns true exactly when every element landing at
an absolute column above `row` is default and the element landing at absolute column `row`
(when the span covers it) is one; elements landing at absolute columns below `row` are not
constrained. -/
theorem tryAssign_DenseVector_true_iff_rowVectorRule {α : Type} (E : Shims α)
    (lhs : UniLowerMatrix α) (rhs : DenseVector α) (row column : Nat) :
    tryAssign_DenseVector_true E lhs rhs row column = true ↔ RowVectorRule E rhs row column :=
  denseVector_true_iff E lhs rhs row column

/-- C5, the code at the failing input: on the 3x3 identity the 1x2 block [[0,7]] landing at
(1,0) is accepted by the row-major and by the column-major overload, while the row-vector
overload rejects its row 0 at (1,0) and the column-vector overload rejects its column 1 at
(1,1). -/
theorem tryAssign_denseMatrix_differs_from_lines :
    (tryAssign_DenseMatrix_false intShims ⟨identityMatrix 3⟩
        (DenseMatrix.ofRows 0 1 2 [[0, 7]]) 1 0 = true ∧
      tryAssign_DenseVector_true intShims ⟨identityMatrix 3⟩
        (rowOf (DenseMatrix.ofRows 0 1 2 [[0, 7]]) 0) (1 + 0) 0 = false) ∧
    (tryAssign_DenseMatrix_true intShims ⟨identityMatrix 3⟩
        (DenseMatrix.ofRows 0 1 2 [[0, 7]]) 1 0 = true ∧
      tryAssign_DenseVector_false intShims ⟨identityMatrix 3⟩
        (columnOf (DenseMatrix.ofRows 0 1 2 [[0, 7]]) 1) 1 (0 + 1) = false) := by
  decide

/-- C8: a guarded write whose predicate returns false reports the invariant-violation error
and hands back the target it was given, whichever of the eight overloads is the predicate
and whatever matrix the commit would have stored. -/
theorem guarded_write_all_or_nothing {α : Type} (E : Shims α) (lhs : UniLowerMatrix α)
    (v : DenseVector α) (s : SparseVector α) (d : DenseMatrix α) (a : SparseMatrix α)
    (written : DenseMatrix α) (row column : Nat) :
    (tryAssign_DenseVector_false E lhs v row column = false →
      guardedWrite (tryAssign_DenseVector_false E lhs v row column) lhs written =
        (Except.error AssignError.invariantViolation, lhs)) ∧
    (tryAssign_DenseVector_true E lhs v row column = false →
      guardedWrite (tryAssign_DenseVector_true E lhs v row column) lhs written =
        (Except.error AssignError.invariantViolation, lhs)) ∧
    (tryAssign_SparseVector_false E lhs s row column = false →
      guardedWrite (tryAssign_SparseVector_false E lhs s row column) lhs written =
        (Except.error AssignError.invariantViolation, lhs)) ∧
    (tryAssign_SparseVector_true E lhs s row column = false →
      guardedWrite (tryAssign_SparseVector_true E lhs s row column) lhs written =
        (Except.error AssignError.invariantViolation, lhs)) ∧
    (tryAssign_DenseMatrix_false E lhs d row column = false →
      guardedWrite (tryAssign_DenseMatrix_false E lhs d row column) lhs written =
        (Except.error AssignError.invariantViolation, lhs)) ∧
    (tryAssign_DenseMatrix_true E lhs d row column = false →
      guardedWrite (tryAssign_DenseMatrix_true E lhs d row column) lhs written =
        (Except.error AssignError.invariantViolation, lhs)) ∧
    (tryAssign_SparseMatrix_false E lhs a row column = false →
      guardedWrite (tryAssign_SparseMatrix_false E lhs a row column) lhs written =
        (Except.error AssignError.invariantViolation, lhs)) ∧
    (tryAssign_SparseMatrix_true E lhs a row column = false →
      guardedWrite (tryAssign_SparseMatrix_true E lhs a row column) lhs written =
        (Except.error AssignError.invariantViolation, lhs)) := by
  refine ⟨fun h => ?_, fun h => ?_, fun h => ?_, fun h => ?_, fun h => ?_, fun h => ?_,
    fun h => ?_, fun h => ?_⟩ <;>
  · rw [h]
    rfl

/-- C8 at a concrete input: on the 3x3 identity the row vector [0,1,5] at (2,0) is rejected,
the guarded write of the overwritten target reports the error and every element of the
returned target is the one before the call. -/
theorem guarded_write_all_or_nothing_witness :
    tryAssign_DenseVector_true intShims ⟨identityMatrix 3⟩
        (DenseVector.ofList 0 [0, 1, 5]) 2 0 = false ∧
    (guardedWrite
        (tryAssign_DenseVector_true intShims ⟨identityMatrix 3⟩
          (DenseVector.ofList 0 [0, 1, 5]) 2 0)
        ⟨identityMatrix 3⟩
        (overwriteRowVector (identityMatrix 3) (DenseVector.ofList 0 [0, 1, 5]) 2 0)).1 =
      Except.error AssignError.invariantViolation ∧
    ∀ i j,
      (guardedWrite
        (tryAssign_DenseVector_true intShims ⟨identityMatrix 3⟩
          (DenseVector.ofList 0 [0, 1, 5]) 2 0)
        ⟨identityMatrix 3⟩
        (overwriteRowVector (identityMatrix 3)
          (DenseVector.ofList 0 [0, 1, 5]) 2 0)).2.matrix_.get i j =
        (identityMatrix 3).get i j := by
  have h := (guarded_write_all_or_nothing intShims ⟨identityMatrix 3⟩
    (DenseVector.ofList 0 [0, 1, 5]) (SparseVector.ofList 0 []) (identityMatrix 0)
    (SparseMatrix.ofLines 0 0 [])
    (overwriteRowVector (identityMatrix 3) (DenseVector.ofList 0 [0, 1, 5]) 2 0) 2 0).2.1
    (by decide)
  refine ⟨by decide, ?_, fun i j => ?_⟩
  · rw [h]
  · rw [h]

/-- C9: on the 3x3 identity the row vector [0,1,5] at (2,0) is rejected; the row vector
[0,0,1] at (2,0) is accepted, and the target overwritten with it has M(2,0)=0, M(2,1)=0
and M(2,2)=1. -/
theorem scenario_row_vector_on_identity3 :
    tryAssign_DenseVector_true intShims ⟨identityMatrix 3⟩
        (DenseVector.ofList 0 [0, 1, 5]) 2 0 = false ∧
    tryAssign_DenseVector_true intShims ⟨identityMatrix 3⟩
        (DenseVector.ofList 0 [0, 0, 1]) 2 0 = true ∧
    (overwriteRowVector (identityMatrix 3) (DenseVector.ofList 0 [0, 0, 1]) 2 0).get 2 0 = 0 ∧
    (overwriteRowVector (identityMatrix 3) (DenseVector.ofList 0 [0, 0, 1]) 2 0).get 2 1 = 0 ∧
    (overwriteRowVector (identityMatrix 3) (DenseVector.ofList 0 [0, 0, 1]) 2 0).get 2 2 = 1 :=
  ⟨by decide, by decide, by decide, by decide, by decide⟩

end blaze

namespace blaze

/-! ## Sparse containers: stored entries against the dense expansion -/

theorem lookup_of_forall_ne {α : Type} (z : α) (es : List (Element α)) (i : Nat)
    (h : ∀ e, e ∈ es → e.index ≠ i) : lookup z es i = z := by
  induction es with
  | nil => rfl
  | cons e es ih =>
    have h1 : e.index ≠ i := h e (List.mem_cons_self _ _)
    simp only [lookup, h1, if_false]
    exact ih (fun e' he' => h e' (List.mem_cons_of_mem _ he'))

theorem lookup_of_bound {α : Type} (z : α) (es : List (Element α)) (bound i : Nat)
    (hb : ∀ e, e ∈ es → e.index < bound) (hi : bound ≤ i) : lookup z es i = z :=
  lookup_of_forall_ne z es i (fun e he => by have := hb e he; omega)

/-- The entries before `lowerBound es k` are default exactly when the expansion is default
at every position below `k`. -/
theorem take_lowerBound_all {α : Type} (E : Shims α) (z : α) (hz : E.isDefault z = true)
    (es : List (Element α)) (k : Nat)
    (hs : es.Pairwise (fun a b => a.index < b.index)) :
    (es.take (lowerBound es k)).all (fun e => E.isDefault e.value) = true ↔
      ∀ i, i < k → E.isDefault (lookup z es i) = true := by
  induction es with
  | nil => simp [lowerBound, lookup, hz]
  | cons e es ih =>
    rw [List.pairwise_cons] at hs
    obtain ⟨hlt, hs⟩ := hs
    by_cases hk : k ≤ e.index
    · simp only [lowerBound, hk, if_true, List.take_zero, List.all_nil, true_iff]
      intro i hi
      have h1 : e.index ≠ i := by omega
      simp only [lookup, h1, if_false]
      rw [lookup_of_forall_ne z es i (fun e1 he1 => by have := hlt e1 he1; omega)]
      exact hz
    · simp only [lowerBound, hk, if_false, List.take_succ_cons, List.all_cons,
        Bool.and_eq_true, ih hs]
      constructor
      · rintro ⟨h1, h2⟩ i hi
        by_cases hei : e.index = i
        · simp only [lookup, hei, if_true]; exact h1
        · simp only [lookup, hei, if_false]; exact h2 i hi
      · intro h
        refine ⟨?_, fun i hi => ?_⟩
        · have := h e.index (by omega)
          simpa only [lookup, if_true] using this
        · by_cases hei : e.index = i
          · rw [lookup_of_forall_ne z es i (fun e1 he1 => by have := hlt e1 he1; omega)]
            exact hz
          · have := h i hi
            simpa only [lookup, hei, if_false] using this

/-- All stored entries are default exactly when the expansion is default everywhere. -/
theorem all_default_iff_lookup {α : Type} (E : Shims α) (z : α) (hz : E.isDefault z = true)
    (es : List (Element α)) (hs : es.Pairwise (fun a b => a.index < b.index)) :
    es.all (fun e => E.isDefault e.value) = true ↔
      ∀ i, E.isDefault (lookup z es i) = true := by
  induction es with
  | nil => simp [lookup, hz]
  | cons e es ih =>
    rw [List.pairwise_cons] at hs
    obtain ⟨hlt, hs⟩ := hs
    simp only [List.all_cons, Bool.and_eq_true, ih hs]
    constructor
    · rintro ⟨h1, h2⟩ i
      by_cases hei : e.index = i
      · simp only [lookup, hei, if_true]; exact h1
      · simp only [lookup, hei, if_false]; exact h2 i
    · intro h
      refine ⟨?_, fun i => ?_⟩
      · have := h e.index
        simpa only [lookup, if_true] using this
      · by_cases hei : e.index = i
        · rw [lookup_of_forall_ne z es i (fun e1 he1 => by have := hlt e1 he1; omega)]
          exact hz
        · have := h i
          simpa only [lookup, hei, if_false] using this

theorem lookup_drop_lowerBound {α : Type} (z : α) (es : List (Element α)) (k i : Nat)
    (hs : es.Pairwise (fun a b => a.index < b.index)) :
    lookup z (es.drop (lowerBound es k)) i = if k ≤ i then lookup z es i else z := by
  induction es with
  | nil => simp [lowerBound, lookup]
  | cons e es ih =>
    rw [List.pairwise_cons] at hs
    obtain ⟨hlt, hs⟩ := hs
    by_cases hk : k ≤ e.index
    · simp only [lowerBound, hk, if_true, List.drop_zero]
      by_cases hki : k ≤ i
      · simp only [hki, if_true]
      · simp only [hki, if_false]
        exact lookup_of_forall_ne z (e :: es) i (fun e1 he1 => by
          rcases List.mem_cons.1 he1 with h1 | h1
          · subst h1; omega
          · have := hlt e1 h1; omega)
    · simp only [lowerBound, hk, if_false, List.drop_succ_cons, ih hs]
      by_cases hki : k ≤ i
      · have hei : e.index ≠ i := by omega
        simp only [hki, if_true, lookup, hei, if_false]
      · simp only [hki, if_false]

/-- The entries from `lowerBound es k` on are default exactly when the expansion is default
at every position from `k` on. -/
theorem drop_lowerBound_all {α : Type} (E : Shims α) (z : α) (hz : E.isDefault z = true)
    (es : List (Element α)) (k : Nat)
    (hs : es.Pairwise (fun a b => a.index < b.index)) :
    (es.drop (lowerBound es k)).all (fun e => E.isDefault e.value) = true ↔
      ∀ i, k ≤ i → E.isDefault (lookup z es i) = true := by
  rw [all_default_iff_lookup E z hz _ (hs.sublist (List.drop_sublist _ _))]
  constructor
  · intro h i hi
    have := h i
    rwa [lookup_drop_lowerBound z es k i hs, if_pos hi] at this
  · intro h i
    rw [lookup_drop_lowerBound z es k i hs]
    by_cases hki : k ≤ i
    · simp only [hki, if_true]; exact h i hki
    · simp only [hki, if_false]; exact hz

/-- The check of the candidate diagonal entry found by `lowerBound` is the `isOne` test of
the expansion at the diagonal position. -/
theorem diagonal_lowerBound {α : Type} (E : Shims α) (z : α) (hz : E.isOne z = false)
    (es : List (Element α)) (k : Nat)
    (hs : es.Pairwise (fun a b => a.index < b.index)) :
    (match es.get? (lowerBound es k) with
      | none => false
      | some e => if (e.index != k || !E.isOne e.value) = true then false else true) =
      E.isOne (lookup z es k) := by
  induction es with
  | nil => simp [lowerBound, lookup, hz]
  | cons e es ih =>
    rw [List.pairwise_cons] at hs
    obtain ⟨hlt, hs⟩ := hs
    by_cases hk : k ≤ e.index
    · simp only [lowerBound, hk, if_true, List.get?_cons_zero]
      by_cases hei : e.index = k
      · simp only [lookup, hei, if_true, bne_self_eq_false, Bool.false_or]
        cases E.isOne e.value <;> rfl
      · have hne : (e.index != k) = true := by simpa using hei
        simp only [lookup, hei, if_false, hne, Bool.true_or, if_true]
        rw [lookup_of_forall_ne z es k (fun e1 he1 => by have := hlt e1 he1; omega)]
        exact hz.symm
    · have hei : e.index ≠ k := by omega
      simp only [lowerBound, hk, if_false, List.get?_cons_succ, lookup, hei]
      exact ih hs

/-- After a stored diagonal entry the iterator stands at the lower bound of the next
index. -/
theorem lowerBound_succ {α : Type} (es : List (Element α)) (k : Nat) (e : Element α)
    (hs : es.Pairwise (fun a b => a.index < b.index))
    (hget : es.get? (lowerBound es k) = some e) (hidx : e.index = k) :
    lowerBound es k + 1 = lowerBound es (k + 1) := by
  induction es with
  | nil => simp [lowerBound] at hget
  | cons e0 es ih =>
    rw [List.pairwise_cons] at hs
    obtain ⟨hlt, hs⟩ := hs
    by_cases hk : k ≤ e0.index
    · simp only [lowerBound, hk, if_true, List.get?_cons_zero, Option.some.injEq] at hget
      subst hget
      have h1 : ¬ (k + 1 ≤ e0.index) := by omega
      simp only [lowerBound, hk, if_true, h1, if_false]
      cases es with
      | nil => rfl
      | cons e1 es1 =>
        have := hlt e1 (List.mem_cons_self _ _)
        have h2 : k + 1 ≤ e1.index := by omega
        simp only [lowerBound, h2, if_true]
    · have h1 : ¬ (k + 1 ≤ e0.index) := by omega
      simp only [lowerBound, hk, if_false, List.get?_cons_succ] at hget
      simp only [lowerBound, hk, if_false, h1]
      rw [ih hs hget]

end blaze

namespace blaze

/-! ## Sparse vectors against dense vectors -/

theorem sparseVector_false_iff {α : Type} (E : Shims α) (z : α)
    (hz0 : E.isDefault z = true) (hz1 : E.isOne z = false)
    (lhs : UniLowerMatrix α) (rhs : SparseVector α) (row column : Nat)
    (hwf : WellFormed rhs.elements rhs.size) :
    tryAssign_SparseVector_false E lhs rhs row column = true ↔
      ColumnVectorRule E (rhs.expand z) row column := by
  obtain ⟨hs, hb⟩ := hwf
  unfold tryAssign_SparseVector_false ColumnVectorRule
  simp only [SparseVector.expand]
  by_cases h : column < row
  · simp only [h, if_true, true_iff]
    intro k _
    exact ⟨fun h1 => by omega, fun h1 => by omega⟩
  · simp only [h, if_false, diagonal_lowerBound E z hz1 _ _ hs, SparseVector.expand]
    have hA := take_lowerBound_all E z hz0 rhs.elements (column - row) hs
    have key : (if (decide (column < row + rhs.size) &&
          !E.isOne (lookup z rhs.elements (column - row))) = true then false
        else if (!(rhs.elements.take (lowerBound rhs.elements (column - row))).all
          (fun e => E.isDefault e.value)) = true then false else true) = true ↔
        ((column < row + rhs.size → E.isOne (lookup z rhs.elements (column - row)) = true) ∧
          (rhs.elements.take (lowerBound rhs.elements (column - row))).all
            (fun e => E.isDefault e.value) = true) := by
      by_cases hd : column < row + rhs.size <;>
        cases E.isOne (lookup z rhs.elements (column - row)) <;>
        cases (rhs.elements.take (lowerBound rhs.elements (column - row))).all
          (fun e => E.isDefault e.value) <;> simp [hd]
    rw [key, hA]
    constructor
    · rintro ⟨h1, h2⟩ k hk
      refine ⟨fun hlt => h2 k (by omega), fun heq => ?_⟩
      have e : k = column - row := by omega
      rw [e]
      exact h1 (by omega)
    · intro hall
      refine ⟨fun hd => (hall (column - row) (by omega)).2 (by omega), fun i hi => ?_⟩
      by_cases hik : i < rhs.size
      · exact (hall i hik).1 (by omega)
      · rw [lookup_of_bound z rhs.elements rhs.size i hb (by omega)]
        exact hz0

theorem sparseVector_true_iff {α : Type} (E : Shims α) (z : α)
    (hz0 : E.isDefault z = true) (hz1 : E.isOne z = false)
    (lhs : UniLowerMatrix α) (rhs : SparseVector α) (row column : Nat)
    (hwf : WellFormed rhs.elements rhs.size) :
    tryAssign_SparseVector_true E lhs rhs row column = true ↔
      RowVectorRule E (rhs.expand z) row column := by
  obtain ⟨hs, hb⟩ := hwf
  unfold tryAssign_SparseVector_true RowVectorRule
  simp only [SparseVector.expand]
  by_cases h : row ≥ column + rhs.size
  · simp only [h, if_true, true_iff]
    intro k _
    exact ⟨fun h1 => by omega, fun h1 => by omega⟩
  · simp only [h, if_false, SparseVector.expand]
    by_cases hd : row ≥ column
    · simp only [hd, decide_True, if_true, Bool.true_and,
        diagonal_lowerBound E z hz1 _ _ hs]
      cases ho : E.isOne (lookup z rhs.elements (row - column)) with
      | false =>
        simp only [Bool.not_false, if_true, Bool.false_eq_true, false_iff]
        intro hall
        have := (hall (row - column) (by omega)).2 (by omega)
        rw [ho] at this
        exact Bool.false_ne_true this
      | true =>
        simp only [Bool.not_true, Bool.false_eq_true, if_false]
        have hget : ∃ e, rhs.elements.get? (lowerBound rhs.elements (row - column)) = some e ∧
            e.index = row - column := by
          have hdl := diagonal_lowerBound E z hz1 rhs.elements (row - column) hs
          rw [ho] at hdl
          cases hg : rhs.elements.get? (lowerBound rhs.elements (row - column)) with
          | none => rw [hg] at hdl; simp at hdl
          | some e =>
            rw [hg] at hdl
            refine ⟨e, rfl, ?_⟩
            by_contra hne
            have hne1 : (e.index != row - column) = true := by simpa using hne
            simp [hne1] at hdl
        obtain ⟨e, hg, hidx⟩ := hget
        rw [lowerBound_succ rhs.elements (row - column) e hs hg hidx]
        have hD := drop_lowerBound_all E z hz0 rhs.elements (row - column + 1) hs
        cases hdrop : (rhs.elements.drop (lowerBound rhs.elements (row - column + 1))).all
            (fun e => E.isDefault e.value) with
        | true =>
          simp only [Bool.not_true, Bool.false_eq_true, if_false, true_iff]
          have hD1 := hD.1 hdrop
          intro k hk
          refine ⟨fun hlt => hD1 k (by omega), fun heq => ?_⟩
          have e1 : k = row - column := by omega
          rw [e1]; exact ho
        | false =>
          simp only [Bool.not_false, if_true, Bool.false_eq_true, false_iff]
          intro hall
          have : (rhs.elements.drop (lowerBound rhs.elements (row - column + 1))).all
              (fun e => E.isDefault e.value) = true := by
            rw [hD]
            intro i hi
            by_cases hik : i < rhs.size
            · exact (hall i hik).1 (by omega)
            · rw [lookup_of_bound z rhs.elements rhs.size i hb (by omega)]
              exact hz0
          rw [hdrop] at this
          exact Bool.false_ne_true this
    · simp only [hd, decide_False, Bool.false_and, Bool.false_eq_true, if_false]
      have hD := drop_lowerBound_all E z hz0 rhs.elements 0 hs
      cases hdrop : (rhs.elements.drop (lowerBound rhs.elements 0)).all
          (fun e => E.isDefault e.value) with
      | true =>
        simp only [Bool.not_true, Bool.false_eq_true, if_false, true_iff]
        have hD1 := hD.1 hdrop
        intro k hk
        exact ⟨fun _ => hD1 k (Nat.zero_le _), fun heq => by omega⟩
      | false =>
        simp only [Bool.not_false, if_true, Bool.false_eq_true, false_iff]
        intro hall
        have : (rhs.elements.drop (lowerBound rhs.elements 0)).all
            (fun e => E.isDefault e.value) = true := by
          rw [hD]
          intro i _
          by_cases hik : i < rhs.size
          · exact (hall i hik).1 (by omega)
          · rw [lookup_of_bound z rhs.elements rhs.size i hb (by omega)]
            exact hz0
        rw [hdrop] at this
        exact Bool.false_ne_true this

end blaze

namespace blaze

/-! ## Sparse matrices: every line is checked by the sparse vector rule -/

theorem ite_not_false_true (b : Bool) : (if (!b) = true then false else true) = b := by
  cases b <;> rfl

theorem lowerBound_of_bound {α : Type} (es : List (Element α)) (k : Nat)
    (hb : ∀ e, e ∈ es → e.index < k) : lowerBound es k = es.length := by
  induction es with
  | nil => rfl
  | cons e es ih =>
    have h1 : ¬ (k ≤ e.index) := by
      have := hb e (List.mem_cons_self _ _); omega
    simp only [lowerBound, h1, if_false, List.length_cons]
    rw [ih (fun e1 he1 => hb e1 (List.mem_cons_of_mem _ he1))]

/-- The row-major sparse overload accepts exactly when its early exit fires or every row of
the right-hand side passes the sparse row-vector overload at the row's own offset. -/
theorem sparseMatrix_false_rows {α : Type} (E : Shims α) (lhs : UniLowerMatrix α)
    (rhs : SparseMatrix α) (row column : Nat) :
    tryAssign_SparseMatrix_false E lhs rhs row column = true ↔
      (row + 1 ≥ column + rhs.columns ∨
        ∀ i, i < rhs.rows →
          tryAssign_SparseVector_true E lhs ⟨rhs.columns, rhs.line i⟩ (row + i) column =
            true) := by
  unfold tryAssign_SparseMatrix_false
  by_cases h : row + 1 ≥ column + rhs.columns
  · simp [h]
  · simp only [h, if_false, false_or]
    rw [forRange_eq_true]
    constructor
    · intro hb i hi
      unfold tryAssign_SparseVector_true
      by_cases hlt : row + i < column + rhs.columns
      · have h1 : ¬ (row + i ≥ column + rhs.columns) := by omega
        have := hb i (Nat.zero_le _) (by omega)
        simp only [h1, if_false, ite_not_false_true]
        exact this
      · have h1 : row + i ≥ column + rhs.columns := by omega
        simp only [h1, if_true]
    · intro hv i _ hi
      have h1 : ¬ (row + i ≥ column + rhs.columns) := by omega
      have := hv i (by omega)
      unfold tryAssign_SparseVector_true at this
      simp only [h1, if_false, ite_not_false_true] at this
      exact this

/-- The column-major sparse overload accepts exactly when its early exit fires or every
column of the right-hand side passes the sparse column-vector overload at the column's own
offset. -/
theorem sparseMatrix_true_columns {α : Type} (E : Shims α) (lhs : UniLowerMatrix α)
    (rhs : SparseMatrix α) (row column : Nat)
    (hwf : ∀ j, j < rhs.columns → WellFormed (rhs.line j) rhs.rows) :
    tryAssign_SparseMatrix_true E lhs rhs row column = true ↔
      (row + 1 ≥ column + rhs.columns ∨
        ∀ j, j < rhs.columns →
          tryAssign_SparseVector_false E lhs ⟨rhs.rows, rhs.line j⟩ row (column + j) =
            true) := by
  have hlb : ∀ j, j < rhs.columns →
      lowerBound (rhs.line j) (min (column + j - row) rhs.rows) =
        lowerBound (rhs.line j) (column + j - row) := by
    intro j hj
    rcases Nat.le_total (column + j - row) rhs.rows with hle | hle
    · rw [Nat.min_eq_left hle]
    · rw [Nat.min_eq_right hle, lowerBound_of_bound _ _ (hwf j hj).2,
        lowerBound_of_bound _ _ (fun e he => Nat.lt_of_lt_of_le ((hwf j hj).2 e he) hle)]
  unfold tryAssign_SparseMatrix_true
  by_cases h : row + 1 ≥ column + rhs.columns
  · simp [h]
  · simp only [h, if_false, false_or]
    rw [forRange_eq_true]
    constructor
    · intro hb j hj
      unfold tryAssign_SparseVector_false
      by_cases hle : row ≤ column + j
      · have h1 : ¬ (column + j < row) := by omega
        have := hb j (by split <;> omega) hj
        simp only [hlb j hj] at this
        simp only [h1, if_false, ite_not_false_true]
        exact this
      · have h1 : column + j < row := by omega
        simp only [h1, if_true]
    · intro hv j hj1 hj2
      have hle : row ≤ column + j := by
        split at hj1 <;> omega
      have h1 : ¬ (column + j < row) := by omega
      have := hv j hj2
      unfold tryAssign_SparseVector_false at this
      simp only [h1, if_false, ite_not_false_true] at this
      simp only [hlb j hj2]
      exact this

end blaze

namespace blaze

/-! ## Sparse right-hand sides and empty right-hand sides: the claims -/

theorem sparseVector_false_empty {α : Type} (E : Shims α) (lhs : UniLowerMatrix α)
    (row column : Nat) :
    tryAssign_SparseVector_false E lhs ⟨0, []⟩ row column = true := by
  unfold tryAssign_SparseVector_false
  by_cases h : column < row
  · simp [h]
  · simp [h, lowerBound]

theorem sparseVector_true_empty {α : Type} (E : Shims α) (lhs : UniLowerMatrix α)
    (row column : Nat) :
    tryAssign_SparseVector_true E lhs ⟨0, []⟩ row column = true := by
  unfold tryAssign_SparseVector_true
  by_cases h : row ≥ column
  · simp [h]
  · simp [h, lowerBound]

theorem wellFormed_zero {α : Type} (es : List (Element α)) (h : WellFormed es 0) : es = [] :=
  List.eq_nil_iff_forall_not_mem.2 (fun e he => Nat.not_lt_zero _ (h.2 e he))

/-- C6: for a sparse vector whose stored entries have strictly increasing indices below its
size, with absent entries reading as a value that is default and not one, the sparse
column-vector overload returns what the dense column-vector overload returns on the dense
expansion, and the sparse row-vector overload returns what the dense row-vector overload
returns on the dense expansion, at every offset. -/
theorem tryAssign_sparseVector_eq_dense_expansion {α : Type} (E : Shims α) (z : α)
    (lhs : UniLowerMatrix α) (rhs : SparseVector α) (row column : Nat)
    (hz0 : E.isDefault z = true) (hz1 : E.isOne z = false)
    (hwf : WellFormed rhs.elements rhs.size) :
    tryAssign_SparseVector_false E lhs rhs row column =
        tryAssign_DenseVector_false E lhs (rhs.expand z) row column ∧
    tryAssign_SparseVector_true E lhs rhs row column =
        tryAssign_DenseVector_true E lhs (rhs.expand z) row column := by
  constructor
  · rw [Bool.eq_iff_iff, sparseVector_false_iff E z hz0 hz1 lhs rhs row column hwf,
      denseVector_false_iff]
    rfl
  · rw [Bool.eq_iff_iff, sparseVector_true_iff E z hz0 hz1 lhs rhs row column hwf,
      denseVector_true_iff]
    rfl

/-- C6 at a concrete input: the sparse vector of size 3 with stored entries 1 at index 1 and
5 at index 2, landing at (1,2) of the 3x3 identity. -/
theorem tryAssign_sparseVector_eq_dense_expansion_witness :
    (intShims.isDefault 0 = true ∧ intShims.isOne 0 = false ∧
      WellFormed (SparseVector.ofList 3 [(1, (1 : Int)), (2, 5)]).elements
        (SparseVector.ofList 3 [(1, (1 : Int)), (2, 5)]).size) ∧
    (tryAssign_SparseVector_false intShims ⟨identityMatrix 3⟩
        (SparseVector.ofList 3 [(1, 1), (2, 5)]) 1 2 =
      tryAssign_DenseVector_false intShims ⟨identityMatrix 3⟩
        ((SparseVector.ofList 3 [(1, 1), (2, 5)]).expand 0) 1 2 ∧
    tryAssign_SparseVector_true intShims ⟨identityMatrix 3⟩
        (SparseVector.ofList 3 [(1, 1), (2, 5)]) 1 2 =
      tryAssign_DenseVector_true intShims ⟨identityMatrix 3⟩
        ((SparseVector.ofList 3 [(1, 1), (2, 5)]).expand 0) 1 2) :=
  ⟨⟨by decide, by decide, by decide, by decide⟩,
    tryAssign_sparseVector_eq_dense_expansion intShims 0 ⟨identityMatrix 3⟩
      (SparseVector.ofList 3 [(1, 1), (2, 5)]) 1 2 (by decide) (by decide)
      ⟨by decide, by decide⟩⟩

/-- C7: for a row-major sparse matrix `a` whose rows, and a column-major sparse matrix `b`
whose columns, store entries with strictly increasing indices inside the matrix, with
absent entries reading as a value that is default and not one, the sparse row-major
overload returns what the dense row-major overload returns on the dense expansion of `a`,
and the sparse column-major overload returns what the dense column-major overload returns
on the dense expansion of `b`, at every offset. -/
theorem tryAssign_sparseMatrix_eq_dense_expansion {α : Type} (E : Shims α) (z : α)
    (lhs : UniLowerMatrix α) (a b : SparseMatrix α) (row column : Nat)
    (hz0 : E.isDefault z = true) (hz1 : E.isOne z = false)
    (ha : ∀ i, i < a.rows → WellFormed (a.line i) a.columns)
    (hb : ∀ j, j < b.columns → WellFormed (b.line j) b.rows) :
    tryAssign_SparseMatrix_false E lhs a row column =
        tryAssign_DenseMatrix_false E lhs (a.expandRowMajor z) row column ∧
    tryAssign_SparseMatrix_true E lhs b row column =
        tryAssign_DenseMatrix_true E lhs (b.expandColumnMajor z) row column := by
  constructor
  · rw [Bool.eq_iff_iff, sparseMatrix_false_rows, denseMatrix_false_rows]
    refine or_congr Iff.rfl (forall_congr' (fun i => ?_))
    refine imp_congr_right (fun hi => ?_)
    rw [sparseVector_true_iff E z hz0 hz1 lhs ⟨a.columns, a.line i⟩ (row + i) column (ha i hi),
      denseVector_true_iff]
    rfl
  · rw [Bool.eq_iff_iff, sparseMatrix_true_columns E lhs b row column hb,
      denseMatrix_true_columns]
    refine or_congr Iff.rfl (forall_congr' (fun j => ?_))
    refine imp_congr_right (fun hj => ?_)
    rw [sparseVector_false_iff E z hz0 hz1 lhs ⟨b.rows, b.line j⟩ row (column + j) (hb j hj),
      denseVector_false_iff]
    rfl

/-- C7 at a concrete input: two 2x2 sparse matrices landing at (0,1) of the 3x3 identity,
the row-major one with rows [1 at 0] and [3 at 0, 1 at 1], the column-major one with
columns [1 at 0, 3 at 1] and [2 at 0, 1 at 1]. -/
theorem tryAssign_sparseMatrix_eq_dense_expansion_witness :
    tryAssign_SparseMatrix_false intShims ⟨identityMatrix 3⟩
        (SparseMatrix.ofLines 2 2 [[(0, 1)], [(0, 3), (1, 1)]]) 0 1 =
      tryAssign_DenseMatrix_false intShims ⟨identityMatrix 3⟩
        ((SparseMatrix.ofLines 2 2 [[(0, 1)], [(0, 3), (1, 1)]]).expandRowMajor 0) 0 1 ∧
    tryAssign_SparseMatrix_true intShims ⟨identityMatrix 3⟩
        (SparseMatrix.ofLines 2 2 [[(0, 1), (1, 3)], [(0, 2), (1, 1)]]) 0 1 =
      tryAssign_DenseMatrix_true intShims ⟨identityMatrix 3⟩
        ((SparseMatrix.ofLines 2 2 [[(0, 1), (1, 3)], [(0, 2), (1, 1)]]).expandColumnMajor 0)
        0 1 :=
  tryAssign_sparseMatrix_eq_dense_expansion intShims 0 ⟨identityMatrix 3⟩
    (SparseMatrix.ofLines 2 2 [[(0, 1)], [(0, 3), (1, 1)]])
    (SparseMatrix.ofLines 2 2 [[(0, 1), (1, 3)], [(0, 2), (1, 1)]]) 0 1
    (by decide) (by decide)
    (fun i hi => by
      have hi2 : i < 2 := hi
      interval_cases i
      · exact ⟨by decide, by decide⟩
      · exact ⟨by decide, by decide⟩)
    (fun j hj => by
      have hj2 : j < 2 := hj
      interval_cases j
      · exact ⟨by decide, by decide⟩
      · exact ⟨by decide, by decide⟩)

/-- C10: a right-hand side of length zero (a vector of size 0, a matrix with 0 rows or 0
columns; for the sparse shapes, with stored indices inside the container) makes each of the
eight overloads return true at every offset. -/
theorem tryAssign_zero_length {α : Type} (E : Shims α) (lhs : UniLowerMatrix α)
    (v : DenseVector α) (s : SparseVector α) (d : DenseMatrix α) (a b : SparseMatrix α)
    (row column : Nat)
    (hv : v.size = 0)
    (hs : s.size = 0) (hswf : WellFormed s.elements s.size)
    (hd : d.rows = 0 ∨ d.columns = 0)
    (ha : a.rows = 0 ∨ a.columns = 0)
    (hawf : ∀ i, i < a.rows → WellFormed (a.line i) a.columns)
    (hb : b.rows = 0 ∨ b.columns = 0)
    (hbwf : ∀ j, j < b.columns → WellFormed (b.line j) b.rows) :
    tryAssign_DenseVector_false E lhs v row column = true ∧
    tryAssign_DenseVector_true E lhs v row column = true ∧
    tryAssign_SparseVector_false E lhs s row column = true ∧
    tryAssign_SparseVector_true E lhs s row column = true ∧
    tryAssign_DenseMatrix_false E lhs d row column = true ∧
    tryAssign_DenseMatrix_true E lhs d row column = true ∧
    tryAssign_SparseMatrix_false E lhs a row column = true ∧
    tryAssign_SparseMatrix_true E lhs b row column = true := by
  have hse : s = ⟨0, []⟩ := by
    cases s with
    | mk size elements =>
      simp only at hs hswf
      subst hs
      rw [wellFormed_zero elements hswf]
  refine ⟨?_, ?_, ?_, ?_, ?_, ?_, ?_, ?_⟩
  · rw [denseVector_false_iff]
    intro k hk
    omega
  · rw [denseVector_true_iff]
    intro k hk
    omega
  · rw [hse]
    exact sparseVector_false_empty E lhs row column
  · rw [hse]
    exact sparseVector_true_empty E lhs row column
  · rw [denseMatrix_false_rows, rows_admissible_iff]
    right
    intro i j hi hj
    omega
  · rw [denseMatrix_true_columns, columns_admissible_iff]
    right
    intro i j hi hj
    omega
  · rw [sparseMatrix_false_rows]
    right
    intro i hi
    rcases ha with h0 | h0
    · omega
    · have hl := hawf i hi
      rw [h0] at hl
      rw [h0, wellFormed_zero _ hl]
      exact sparseVector_true_empty E lhs (row + i) column
  · rw [sparseMatrix_true_columns E lhs b row column hbwf]
    right
    intro j hj
    rcases hb with h0 | h0
    · have hl := hbwf j hj
      rw [h0] at hl
      rw [h0, wellFormed_zero _ hl]
      exact sparseVector_false_empty E lhs row (column + j)
    · omega

/-- C10 at a concrete input: empty vectors, a dense 0x2 matrix, a row-major sparse 2x0 matrix
and a column-major sparse 0x2 matrix, all at offset (1,2) of the 3x3 identity. -/
theorem tryAssign_zero_length_witness :
    tryAssign_DenseVector_false intShims ⟨identityMatrix 3⟩ (DenseVector.ofList 0 []) 1 2 = true ∧
    tryAssign_DenseVector_true intShims ⟨identityMatrix 3⟩ (DenseVector.ofList 0 []) 1 2 = true ∧
    tryAssign_SparseVector_false intShims ⟨identityMatrix 3⟩ (SparseVector.ofList 0 []) 1 2 =
      true ∧
    tryAssign_SparseVector_true intShims ⟨identityMatrix 3⟩ (SparseVector.ofList 0 []) 1 2 =
      true ∧
    tryAssign_DenseMatrix_false intShims ⟨identityMatrix 3⟩ (DenseMatrix.ofRows 0 0 2 []) 1 2 =
      true ∧
    tryAssign_DenseMatrix_true intShims ⟨identityMatrix 3⟩ (DenseMatrix.ofRows 0 0 2 []) 1 2 =
      true ∧
    tryAssign_SparseMatrix_false intShims ⟨identityMatrix 3⟩ (SparseMatrix.ofLines 2 0 [[], []])
      1 2 = true ∧
    tryAssign_SparseMatrix_true intShims ⟨identityMatrix 3⟩ (SparseMatrix.ofLines 0 2 [[], []])
      1 2 = true :=
  tryAssign_zero_length intShims ⟨identityMatrix 3⟩ (DenseVector.ofList 0 [])
    (SparseVector.ofList 0 []) (DenseMatrix.ofRows 0 0 2 []) (SparseMatrix.ofLines 2 0 [[], []])
    (SparseMatrix.ofLines 0 2 [[], []]) 1 2 rfl rfl ⟨by decide, by decide⟩ (Or.inl rfl)
    (Or.inr rfl)
    (fun i hi => by
      have hi2 : i < 2 := hi
      interval_cases i
      · exact ⟨by decide, by decide⟩
      · exact ⟨by decide, by decide⟩)
    (Or.inl rfl)
    (fun j hj => by
      have hj2 : j < 2 := hj
      interval_cases j
      · exact ⟨by decide, by decide⟩
      · exact ⟨by decide, by decide⟩)

end blaze

namespace blaze

/-! ## Right-hand sides off the diagonal band -/

theorem lowerBound_zero {α : Type} (es : List (Element α)) : lowerBound es 0 = 0 := by
  cases es with
  | nil => rfl
  | cons e es => simp [lowerBound]

/-- C11: when every covered position lies strictly below the diagonal (column vector:
`column < row`; row vector: `row >= column + size`; matrix: `row >= column + columns`), each
of the eight overloads returns true whatever the right-hand side holds. -/
theorem tryAssign_below_diagonal {α : Type} (E : Shims α) (lhs : UniLowerMatrix α)
    (v : DenseVector α) (s : SparseVector α) (d : DenseMatrix α) (a : SparseMatrix α)
    (row column : Nat) :
    (column < row → tryAssign_DenseVector_false E lhs v row column = true) ∧
    (row ≥ column + v.size → tryAssign_DenseVector_true E lhs v row column = true) ∧
    (column < row → tryAssign_SparseVector_false E lhs s row column = true) ∧
    (row ≥ column + s.size → tryAssign_SparseVector_true E lhs s row column = true) ∧
    (row ≥ column + d.columns → tryAssign_DenseMatrix_false E lhs d row column = true) ∧
    (row ≥ column + d.columns → tryAssign_DenseMatrix_true E lhs d row column = true) ∧
    (row ≥ column + a.columns → tryAssign_SparseMatrix_false E lhs a row column = true) ∧
    (row ≥ column + a.columns → tryAssign_SparseMatrix_true E lhs a row column = true) := by
  refine ⟨fun h => ?_, fun h => ?_, fun h => ?_, fun h => ?_, fun h => ?_, fun h => ?_,
    fun h => ?_, fun h => ?_⟩
  · unfold tryAssign_DenseVector_false
    simp only [h, if_true]
  · unfold tryAssign_DenseVector_true
    simp only [h, if_true]
  · unfold tryAssign_SparseVector_false
    simp only [h, if_true]
  · unfold tryAssign_SparseVector_true
    simp only [h, if_true]
  · have h1 : row + 1 ≥ column + d.columns := by omega
    unfold tryAssign_DenseMatrix_false
    simp only [h1, if_true]
  · have h1 : row + 1 ≥ column + d.columns := by omega
    unfold tryAssign_DenseMatrix_true
    simp only [h1, if_true]
  · have h1 : row + 1 ≥ column + a.columns := by omega
    unfold tryAssign_SparseMatrix_false
    simp only [h1, if_true]
  · have h1 : row + 1 ≥ column + a.columns := by omega
    unfold tryAssign_SparseMatrix_true
    simp only [h1, if_true]

/-- C11 at concrete inputs on the 3x3 identity: the column vector [7,8] at (1,0), the row
vector [7,8] at (2,0) and the 1x2 matrix [[7,8]] at (2,0), dense and sparse, are accepted
although none of their values is default or one. -/
theorem tryAssign_below_diagonal_witness :
    tryAssign_DenseVector_false intShims ⟨identityMatrix 3⟩
        (DenseVector.ofList 0 [7, 8]) 1 0 = true ∧
    tryAssign_DenseVector_true intShims ⟨identityMatrix 3⟩
        (DenseVector.ofList 0 [7, 8]) 2 0 = true ∧
    tryAssign_SparseVector_false intShims ⟨identityMatrix 3⟩
        (SparseVector.ofList 2 [(0, 7), (1, 8)]) 1 0 = true ∧
    tryAssign_SparseVector_true intShims ⟨identityMatrix 3⟩
        (SparseVector.ofList 2 [(0, 7), (1, 8)]) 2 0 = true ∧
    tryAssign_DenseMatrix_false intShims ⟨identityMatrix 3⟩
        (DenseMatrix.ofRows 0 1 2 [[7, 8]]) 2 0 = true ∧
    tryAssign_DenseMatrix_true intShims ⟨identityMatrix 3⟩
        (DenseMatrix.ofRows 0 1 2 [[7, 8]]) 2 0 = true ∧
    tryAssign_SparseMatrix_false intShims ⟨identityMatrix 3⟩
        (SparseMatrix.ofLines 1 2 [[(0, 7), (1, 8)]]) 2 0 = true ∧
    tryAssign_SparseMatrix_true intShims ⟨identityMatrix 3⟩
        (SparseMatrix.ofLines 1 2 [[(0, 7)], [(0, 8)]]) 2 0 = true :=
  ⟨(tryAssign_below_diagonal intShims ⟨identityMatrix 3⟩ (DenseVector.ofList 0 [7, 8])
      (SparseVector.ofList 2 [(0, 7), (1, 8)]) (DenseMatrix.ofRows 0 1 2 [[7, 8]])
      (SparseMatrix.ofLines 1 2 [[(0, 7), (1, 8)]]) 1 0).1 (by decide),
   (tryAssign_below_diagonal intShims ⟨identityMatrix 3⟩ (DenseVector.ofList 0 [7, 8])
      (SparseVector.ofList 2 [(0, 7), (1, 8)]) (DenseMatrix.ofRows 0 1 2 [[7, 8]])
      (SparseMatrix.ofLines 1 2 [[(0, 7), (1, 8)]]) 2 0).2.1 (by decide),
   (tryAssign_below_diagonal intShims ⟨identityMatrix 3⟩ (DenseVector.ofList 0 [7, 8])
      (SparseVector.ofList 2 [(0, 7), (1, 8)]) (DenseMatrix.ofRows 0 1 2 [[7, 8]])
      (SparseMatrix.ofLines 1 2 [[(0, 7), (1, 8)]]) 1 0).2.2.1 (by decide),
   (tryAssign_below_diagonal intShims ⟨identityMatrix 3⟩ (DenseVector.ofList 0 [7, 8])
      (SparseVector.ofList 2 [(0, 7), (1, 8)]) (DenseMatrix.ofRows 0 1 2 [[7, 8]])
      (SparseMatrix.ofLines 1 2 [[(0, 7), (1, 8)]]) 2 0).2.2.2.1 (by decide),
   (tryAssign_below_diagonal intShims ⟨identityMatrix 3⟩ (DenseVector.ofList 0 [7, 8])
      (SparseVector.ofList 2 [(0, 7), (1, 8)]) (DenseMatrix.ofRows 0 1 2 [[7, 8]])
      (SparseMatrix.ofLines 1 2 [[(0, 7), (1, 8)]]) 2 0).2.2.2.2.1 (by decide),
   (tryAssign_below_diagonal intShims ⟨identityMatrix 3⟩ (DenseVector.ofList 0 [7, 8])
      (SparseVector.ofList 2 [(0, 7), (1, 8)]) (DenseMatrix.ofRows 0 1 2 [[7, 8]])
      (SparseMatrix.ofLines 1 2 [[(0, 7), (1, 8)]]) 2 0).2.2.2.2.2.1 (by decide),
   (tryAssign_below_diagonal intShims ⟨identityMatrix 3⟩ (DenseVector.ofList 0 [7, 8])
      (SparseVector.ofList 2 [(0, 7), (1, 8)]) (DenseMatrix.ofRows 0 1 2 [[7, 8]])
      (SparseMatrix.ofLines 1 2 [[(0, 7), (1, 8)]]) 2 0).2.2.2.2.2.2.1 (by decide),
   (tryAssign_below_diagonal intShims ⟨identityMatrix 3⟩ (DenseVector.ofList 0 [7, 8])
      (SparseVector.ofList 2 [(0, 7), (1, 8)]) (DenseMatrix.ofRows 0 1 2 [[7, 8]])
      (SparseMatrix.ofLines 1 2 [[(0, 7)], [(0, 8)]]) 2 0).2.2.2.2.2.2.2 (by decide)⟩

/-- C12 as stated fails: on the 2x2 identity the row vector [5] at (0,1) lies entirely to
the right of the diagonal position of row 0 (column 1 > row 0), and the dense and the
sparse row-vector overload both reject it. -/
theorem tryAssign_rowVector_right_of_diagonal_rejected :
    (1 : Nat) > 0 ∧
    tryAssign_DenseVector_true intShims ⟨identityMatrix 2⟩
        (DenseVector.ofList 0 [5]) 0 1 = false ∧
    tryAssign_SparseVector_true intShims ⟨identityMatrix 2⟩
        (SparseVector.ofList 1 [(0, 5)]) 0 1 = false := by
  decide

/-- C12, amended: for a row vector placed at `(row, column)` whose span lies entirely to the
right of the diagonal position of its row (`column > row`), the dense overload returns true
exactly when every element is default, and the sparse overload exactly when every stored
entry is default. -/
theorem tryAssign_rowVector_right_of_diagonal_iff_all_default {α : Type} (E : Shims α)
    (lhs : UniLowerMatrix α) (v : DenseVector α) (s : SparseVector α) (row column : Nat)
    (h : column > row) :
    (tryAssign_DenseVector_true E lhs v row column = true ↔
      ∀ k, k < v.size → E.isDefault (v.get k) = true) ∧
    (tryAssign_SparseVector_true E lhs s row column = true ↔
      ∀ e, e ∈ s.elements → E.isDefault e.value = true) := by
  constructor
  · rw [denseVector_true_iff]
    constructor
    · intro hall k hk
      exact (hall k hk).1 (by omega)
    · intro hall k hk
      exact ⟨fun _ => hall k hk, fun heq => by omega⟩
  · have h1 : ¬ (row ≥ column + s.size) := by omega
    have h2 : ¬ (row ≥ column) := by omega
    unfold tryAssign_SparseVector_true
    simp only [h1, h2, if_false, decide_False, Bool.false_and, Bool.false_eq_true,
      lowerBound_zero, List.drop_zero, ite_not_false_true, List.all_eq_true]

/-- C12 amended, at a concrete input: on the 3x3 identity the row vector [0,0] at (0,1), dense
and sparse with stored zeros, is accepted. -/
theorem tryAssign_rowVector_right_of_diagonal_iff_all_default_witness :
    (1 : Nat) > 0 ∧
    tryAssign_DenseVector_true intShims ⟨identityMatrix 3⟩
        (DenseVector.ofList 0 [0, 0]) 0 1 = true ∧
    tryAssign_SparseVector_true intShims ⟨identityMatrix 3⟩
        (SparseVector.ofList 2 [(0, 0), (1, 0)]) 0 1 = true := by
  have hw := tryAssign_rowVector_right_of_diagonal_iff_all_default intShims
    ⟨identityMatrix 3⟩ (DenseVector.ofList 0 [0, 0]) (SparseVector.ofList 2 [(0, 0), (1, 0)])
    0 1 (by decide)
  refine ⟨by decide, hw.1.2 (fun k hk => ?_), hw.2.2 (by decide)⟩
  have hk2 : k < 2 := hk
  interval_cases k <;> decide

end blaze

namespace blaze

/-! ## Structural type algebra -/

/-- C13: the product of two unilower matrices resolves to `UniLowerMatrix` wrapped around
the `MultTrait` result of the two adapted types, of structural kind UniLower, for all
storage orders and density flags of the operands. -/
theorem MultTrait_UniLowerMatrix_UniLowerMatrix (L : Library) (MT1 MT2 : TypeExpr)
    (SO1 DF1 SO2 DF2 : Bool) :
    MultTrait L (.UniLowerMatrix MT1 SO1 DF1) (.UniLowerMatrix MT2 SO2 DF2) =
      some (L.uniLowerMatrix (L.MultTrait MT1 MT2)) ∧
    kindOf (L.uniLowerMatrix (L.MultTrait MT1 MT2)) = Kind.UniLower :=
  ⟨rfl, rfl⟩

/-- C14: the sum and the difference of two unilower matrices resolve to `LowerMatrix`
wrapped around the `AddTrait` and `SubTrait` result of the two adapted types; the kind is
Lower and not UniLower. -/
theorem AddTrait_SubTrait_UniLowerMatrix_UniLowerMatrix (L : Library) (MT1 MT2 : TypeExpr)
    (SO1 DF1 SO2 DF2 : Bool) :
    (AddTrait L (.UniLowerMatrix MT1 SO1 DF1) (.UniLowerMatrix MT2 SO2 DF2) =
        some (L.lowerMatrix (L.AddTrait MT1 MT2)) ∧
      kindOf (L.lowerMatrix (L.AddTrait MT1 MT2)) = Kind.Lower) ∧
    (SubTrait L (.UniLowerMatrix MT1 SO1 DF1) (.UniLowerMatrix MT2 SO2 DF2) =
        some (L.lowerMatrix (L.SubTrait MT1 MT2)) ∧
      kindOf (L.lowerMatrix (L.SubTrait MT1 MT2)) = Kind.Lower) ∧
    Kind.Lower ≠ Kind.UniLower :=
  ⟨⟨rfl, rfl⟩, ⟨rfl, rfl⟩, by decide⟩

/-- C15: a unilower matrix combined with a lower matrix, in either operand order, resolves
for addition, subtraction and multiplication to `LowerMatrix` wrapped around the trait
result of the two adapted types, operand order kept. -/
theorem traits_UniLowerMatrix_LowerMatrix (L : Library) (MT1 MT2 : TypeExpr)
    (SO1 DF1 SO2 DF2 : Bool) :
    AddTrait L (.UniLowerMatrix MT1 SO1 DF1) (.LowerMatrix MT2 SO2 DF2) =
      some (L.lowerMatrix (L.AddTrait MT1 MT2)) ∧
    AddTrait L (.LowerMatrix MT1 SO1 DF1) (.UniLowerMatrix MT2 SO2 DF2) =
      some (L.lowerMatrix (L.AddTrait MT1 MT2)) ∧
    SubTrait L (.UniLowerMatrix MT1 SO1 DF1) (.LowerMatrix MT2 SO2 DF2) =
      some (L.lowerMatrix (L.SubTrait MT1 MT2)) ∧
    SubTrait L (.LowerMatrix MT1 SO1 DF1) (.UniLowerMatrix MT2 SO2 DF2) =
      some (L.lowerMatrix (L.SubTrait MT1 MT2)) ∧
    MultTrait L (.UniLowerMatrix MT1 SO1 DF1) (.LowerMatrix MT2 SO2 DF2) =
      some (L.lowerMatrix (L.MultTrait MT1 MT2)) ∧
    MultTrait L (.LowerMatrix MT1 SO1 DF1) (.UniLowerMatrix MT2 SO2 DF2) =
      some (L.lowerMatrix (L.MultTrait MT1 MT2)) ∧
    (∀ X, kindOf (L.lowerMatrix X) = Kind.Lower) :=
  ⟨rfl, rfl, rfl, rfl, rfl, rfl, fun _ => rfl⟩

/-- C16: a unilower matrix combined with a symmetric matrix, in either operand order,
resolves for addition, subtraction and multiplication to exactly the trait result of the
two adapted types, with no adaptor around it. -/
theorem traits_UniLowerMatrix_SymmetricMatrix (L : Library) (MT1 MT2 : TypeExpr)
    (SO1 DF1 SO2 DF2 NF : Bool) :
    AddTrait L (.UniLowerMatrix MT1 SO1 DF1) (.SymmetricMatrix MT2 SO2 DF2 NF) =
      some (L.AddTrait MT1 MT2) ∧
    AddTrait L (.SymmetricMatrix MT1 SO1 DF1 NF) (.UniLowerMatrix MT2 SO2 DF2) =
      some (L.AddTrait MT1 MT2) ∧
    SubTrait L (.UniLowerMatrix MT1 SO1 DF1) (.SymmetricMatrix MT2 SO2 DF2 NF) =
      some (L.SubTrait MT1 MT2) ∧
    SubTrait L (.SymmetricMatrix MT1 SO1 DF1 NF) (.UniLowerMatrix MT2 SO2 DF2) =
      some (L.SubTrait MT1 MT2) ∧
    MultTrait L (.UniLowerMatrix MT1 SO1 DF1) (.SymmetricMatrix MT2 SO2 DF2 NF) =
      some (L.MultTrait MT1 MT2) ∧
    MultTrait L (.SymmetricMatrix MT1 SO1 DF1 NF) (.UniLowerMatrix MT2 SO2 DF2) =
      some (L.MultTrait MT1 MT2) :=
  ⟨rfl, rfl, rfl, rfl, rfl, rfl⟩

/-- C17: a unilower matrix combined with a static, hybrid, dynamic or compressed matrix, in
either operand order, resolves for addition, subtraction and multiplication to exactly the
same trait of the adapted type and the plain matrix, operand order kept. -/
theorem traits_UniLowerMatrix_plain (L : Library) (MT T : TypeExpr) (M N : Nat)
    (SO1 SO2 DF : Bool) :
    (AddTrait L (.UniLowerMatrix MT SO1 DF) (.StaticMatrix T M N SO2) =
        some (L.AddTrait MT (.StaticMatrix T M N SO2)) ∧
      AddTrait L (.StaticMatrix T M N SO1) (.UniLowerMatrix MT SO2 DF) =
        some (L.AddTrait (.StaticMatrix T M N SO1) MT) ∧
      AddTrait L (.UniLowerMatrix MT SO1 DF) (.HybridMatrix T M N SO2) =
        some (L.AddTrait MT (.HybridMatrix T M N SO2)) ∧
      AddTrait L (.HybridMatrix T M N SO1) (.UniLowerMatrix MT SO2 DF) =
        some (L.AddTrait (.HybridMatrix T M N SO1) MT) ∧
      AddTrait L (.UniLowerMatrix MT SO1 DF) (.DynamicMatrix T SO2) =
        some (L.AddTrait MT (.DynamicMatrix T SO2)) ∧
      AddTrait L (.DynamicMatrix T SO1) (.UniLowerMatrix MT SO2 DF) =
        some (L.AddTrait (.DynamicMatrix T SO1) MT) ∧
      AddTrait L (.UniLowerMatrix MT SO1 DF) (.CompressedMatrix T SO2) =
        some (L.AddTrait MT (.CompressedMatrix T SO2)) ∧
      AddTrait L (.CompressedMatrix T SO1) (.UniLowerMatrix MT SO2 DF) =
        some (L.AddTrait (.CompressedMatrix T SO1) MT)) ∧
    (SubTrait L (.UniLowerMatrix MT SO1 DF) (.StaticMatrix T M N SO2) =
        some (L.SubTrait MT (.StaticMatrix T M N SO2)) ∧
      SubTrait L (.StaticMatrix T M N SO1) (.UniLowerMatrix MT SO2 DF) =
        some (L.SubTrait (.StaticMatrix T M N SO1) MT) ∧
      SubTrait L (.UniLowerMatrix MT SO1 DF) (.HybridMatrix T M N SO2) =
        some (L.SubTrait MT (.HybridMatrix T M N SO2)) ∧
      SubTrait L (.HybridMatrix T M N SO1) (.UniLowerMatrix MT SO2 DF) =
        some (L.SubTrait (.HybridMatrix T M N SO1) MT) ∧
      SubTrait L (.UniLowerMatrix MT SO1 DF) (.DynamicMatrix T SO2) =
        some (L.SubTrait MT (.DynamicMatrix T SO2)) ∧
      SubTrait L (.DynamicMatrix T SO1) (.UniLowerMatrix MT SO2 DF) =
        some (L.SubTrait (.DynamicMatrix T SO1) MT) ∧
      SubTrait L (.UniLowerMatrix MT SO1 DF) (.CompressedMatrix T SO2) =
        some (L.SubTrait MT (.CompressedMatrix T SO2)) ∧
      SubTrait L (.CompressedMatrix T SO1) (.UniLowerMatrix MT SO2 DF) =
        some (L.SubTrait (.CompressedMatrix T SO1) MT)) ∧
    (MultTrait L (.UniLowerMatrix MT SO1 DF) (.StaticMatrix T M N SO2) =
        some (L.MultTrait MT (.StaticMatrix T M N SO2)) ∧
      MultTrait L (.StaticMatrix T M N SO1) (.UniLowerMatrix MT SO2 DF) =
        some (L.MultTrait (.StaticMatrix T M N SO1) MT) ∧
      MultTrait L (.UniLowerMatrix MT SO1 DF) (.HybridMatrix T M N SO2) =
        some (L.MultTrait MT (.HybridMatrix T M N SO2)) ∧
      MultTrait L (.HybridMatrix T M N SO1) (.UniLowerMatrix MT SO2 DF) =
        some (L.MultTrait (.HybridMatrix T M N SO1) MT) ∧
      MultTrait L (.UniLowerMatrix MT SO1 DF) (.DynamicMatrix T SO2) =
        some (L.MultTrait MT (.DynamicMatrix T SO2)) ∧
      MultTrait L (.DynamicMatrix T SO1) (.UniLowerMatrix MT SO2 DF) =
        some (L.MultTrait (.DynamicMatrix T SO1) MT) ∧
      MultTrait L (.UniLowerMatrix MT SO1 DF) (.CompressedMatrix T SO2) =
        some (L.MultTrait MT (.CompressedMatrix T SO2)) ∧
      MultTrait L (.CompressedMatrix T SO1) (.UniLowerMatrix MT SO2 DF) =
        some (L.MultTrait (.CompressedMatrix T SO1) MT)) :=
  ⟨⟨rfl, rfl, rfl, rfl, rfl, rfl, rfl, rfl⟩, ⟨rfl, rfl, rfl, rfl, rfl, rfl, rfl, rfl⟩,
    ⟨rfl, rfl, rfl, rfl, rfl, rfl, rfl, rfl⟩⟩

/-- C18: a unilower matrix divided by a numeric scalar resolves to `LowerMatrix` wrapped
around the `DivTrait` result of the adapted type and the scalar, of structural kind
Lower. -/
theorem DivTrait_UniLowerMatrix_scalar (L : Library) (MT : TypeExpr) (SO DF : Bool)
    (t : Nat) :
    DivTrait L (.UniLowerMatrix MT SO DF) (.numeric t) =
      some (L.lowerMatrix (L.DivTrait MT (.numeric t))) ∧
    kindOf (L.lowerMatrix (L.DivTrait MT (.numeric t))) = Kind.Lower :=
  ⟨rfl, rfl⟩

/-- C19: for addition, subtraction and multiplication and every partner among the plain
matrices, the symmetric, the lower and the unilower matrices, the header resolves a type
for both operand orders and the two results have the same structural kind, when the
library's traits of the adapted types are symmetric in kind. -/
theorem trait_kind_symmetric (L : Library) (MT B : TypeExpr) (SO DF : Bool)
    (hB : isMatrixPartner B = true)
    (hadd : ∀ X Y, kindOf (L.AddTrait X Y) = kindOf (L.AddTrait Y X))
    (hsub : ∀ X Y, kindOf (L.SubTrait X Y) = kindOf (L.SubTrait Y X))
    (hmul : ∀ X Y, kindOf (L.MultTrait X Y) = kindOf (L.MultTrait Y X)) :
    ((AddTrait L (.UniLowerMatrix MT SO DF) B).isSome = true ∧
      Option.map kindOf (AddTrait L (.UniLowerMatrix MT SO DF) B) =
        Option.map kindOf (AddTrait L B (.UniLowerMatrix MT SO DF))) ∧
    ((SubTrait L (.UniLowerMatrix MT SO DF) B).isSome = true ∧
      Option.map kindOf (SubTrait L (.UniLowerMatrix MT SO DF) B) =
        Option.map kindOf (SubTrait L B (.UniLowerMatrix MT SO DF))) ∧
    ((MultTrait L (.UniLowerMatrix MT SO DF) B).isSome = true ∧
      Option.map kindOf (MultTrait L (.UniLowerMatrix MT SO DF) B) =
        Option.map kindOf (MultTrait L B (.UniLowerMatrix MT SO DF))) := by
  cases B <;> simp only [isMatrixPartner, Bool.false_eq_true] at hB <;>
    refine ⟨⟨rfl, ?_⟩, ⟨rfl, ?_⟩, ⟨rfl, ?_⟩⟩ <;>
    simp only [AddTrait, SubTrait, MultTrait, Option.map_some', Option.some.injEq] <;>
    first
      | rfl
      | exact hadd _ _
      | exact hsub _ _
      | exact hmul _ _

/-- C19 at a concrete input: in the sample library, a unilower dynamic matrix and a 3x3
static matrix give results of the same kind in both operand orders. -/
theorem trait_kind_symmetric_witness :
    isMatrixPartner (TypeExpr.StaticMatrix (TypeExpr.numeric 0) 3 3 false) = true ∧
    Option.map kindOf (AddTrait sampleLibrary
        (TypeExpr.UniLowerMatrix (TypeExpr.DynamicMatrix (TypeExpr.numeric 0) false) false true)
        (TypeExpr.StaticMatrix (TypeExpr.numeric 0) 3 3 false)) =
      Option.map kindOf (AddTrait sampleLibrary
        (TypeExpr.StaticMatrix (TypeExpr.numeric 0) 3 3 false)
        (TypeExpr.UniLowerMatrix (TypeExpr.DynamicMatrix (TypeExpr.numeric 0) false) false
          true)) :=
  ⟨rfl, (trait_kind_symmetric sampleLibrary (TypeExpr.DynamicMatrix (TypeExpr.numeric 0) false)
    (TypeExpr.StaticMatrix (TypeExpr.numeric 0) 3 3 false) false true rfl
    (fun _ _ => rfl) (fun _ _ => rfl) (fun _ _ => rfl)).1.2⟩

/-- C20: the submatrix, row and column traits of a unilower matrix are exactly the
submatrix, row and column traits of the adapted type; no adaptor is put around them. -/
theorem extraction_traits_UniLowerMatrix (L : Library) (MT : TypeExpr) (SO DF : Bool) :
    SubmatrixTrait L (.UniLowerMatrix MT SO DF) = some (L.SubmatrixTrait MT) ∧
    RowTrait L (.UniLowerMatrix MT SO DF) = some (L.RowTrait MT) ∧
    ColumnTrait L (.UniLowerMatrix MT SO DF) = some (L.ColumnTrait MT) :=
  ⟨rfl, rfl, rfl⟩

end blaze

namespace blaze

/-! ## Value traits of the adaptor -/

/-- C21 as stated fails for `IsSquare`: for the adapted type `DynamicMatrix`, which is not
square at compile time, the adaptor's `IsSquare` is true and not the value of the adapted
type. -/
theorem IsSquare_UniLowerMatrix_not_forwarded :
    sampleValueTraits.IsSquare (TypeExpr.DynamicMatrix (TypeExpr.numeric 0) false) = false ∧
    IsSquare (TypeExpr.UniLowerMatrix (TypeExpr.DynamicMatrix (TypeExpr.numeric 0) false)
        false true) = some true ∧
    IsSquare (TypeExpr.UniLowerMatrix (TypeExpr.DynamicMatrix (TypeExpr.numeric 0) false)
        false true) ≠
      some (sampleValueTraits.IsSquare (TypeExpr.DynamicMatrix (TypeExpr.numeric 0) false)) := by
  decide

/-- C21, amended: `Rows`, `Columns` and `IsResizable` of a unilower matrix have exactly the
value the same trait has for the adapted type; `IsSquare` of a unilower matrix is true for
every adapted type, whatever `IsSquare` of the adapted type is. -/
theorem size_traits_UniLowerMatrix (V : ValueTraits) (MT : TypeExpr) (SO DF : Bool) :
    Rows V (.UniLowerMatrix MT SO DF) = some (V.Rows MT) ∧
    Columns V (.UniLowerMatrix MT SO DF) = some (V.Columns MT) ∧
    IsResizable V (.UniLowerMatrix MT SO DF) = some (V.IsResizable MT) ∧
    IsSquare (.UniLowerMatrix MT SO DF) = some true :=
  ⟨rfl, rfl, rfl, rfl⟩

/-- C22: every unilower matrix type is classified as square, unilower, an adaptor and
restricted, whatever the adapted type, the storage order and the density flag. -/
theorem classification_UniLowerMatrix (MT : TypeExpr) (SO DF : Bool) :
    IsSquare (.UniLowerMatrix MT SO DF) = some true ∧
    IsUniLower (.UniLowerMatrix MT SO DF) = some true ∧
    IsAdaptor (.UniLowerMatrix MT SO DF) = some true ∧
    IsRestricted (.UniLowerMatrix MT SO DF) = some true :=
  ⟨rfl, rfl, rfl, rfl⟩

/-! ## Soundness of the result kinds -/

theorem uniLower_mul {n : Nat} {R : Type} [Semiring R] (A B : Matrix (Fin n) (Fin n) R)
    (hA : KindInvariant Kind.UniLower A) (hB : KindInvariant Kind.UniLower B) :
    KindInvariant Kind.UniLower (A * B) := by
  intro i j
  constructor
  · intro hij
    rw [Matrix.mul_apply]
    apply Finset.sum_eq_zero
    intro k _
    rcases lt_or_le i k with hik | hki
    · rw [(hA i k).1 hik, zero_mul]
    · rw [(hB k j).1 (lt_of_le_of_lt hki hij), mul_zero]
  · intro hij
    subst hij
    rw [Matrix.mul_apply, Finset.sum_eq_single i]
    · rw [(hA i i).2 rfl, (hB i i).2 rfl, mul_one]
    · intro k _ hki
      rcases lt_or_gt_of_ne hki with h1 | h1
      · rw [(hB k i).1 h1, mul_zero]
      · rw [(hA i k).1 h1, zero_mul]
    · intro h
      exact absurd (Finset.mem_univ i) h

/-- C23: the product of two unilower matrix types resolves to a type of kind UniLower, and
the guarantee of that kind holds for the product: for all n x n matrices A and B over a
semiring (in particular over a commutative ring) that are zero strictly above the diagonal
and one on it, so is A * B. -/
theorem MultTrait_UniLowerMatrix_kind_sound {n : Nat} {R : Type} [Semiring R] (L : Library)
    (MT1 MT2 : TypeExpr) (SO1 DF1 SO2 DF2 : Bool) (A B : Matrix (Fin n) (Fin n) R)
    (hA : KindInvariant Kind.UniLower A) (hB : KindInvariant Kind.UniLower B) :
    MultTrait L (.UniLowerMatrix MT1 SO1 DF1) (.UniLowerMatrix MT2 SO2 DF2) =
      some (L.uniLowerMatrix (L.MultTrait MT1 MT2)) ∧
    KindInvariant (kindOf (L.uniLowerMatrix (L.MultTrait MT1 MT2))) (A * B) :=
  ⟨rfl, uniLower_mul A B hA hB⟩

/-- C23 at a concrete input: the 2x2 integer matrices [[1,0],[3,1]] and [[1,0],[5,1]]. -/
theorem MultTrait_UniLowerMatrix_kind_sound_witness :
    KindInvariant Kind.UniLower (!![1, 0; 3, 1] : Matrix (Fin 2) (Fin 2) Int) ∧
    KindInvariant Kind.UniLower (!![1, 0; 5, 1] : Matrix (Fin 2) (Fin 2) Int) ∧
    KindInvariant Kind.UniLower
      ((!![1, 0; 3, 1] : Matrix (Fin 2) (Fin 2) Int) * !![1, 0; 5, 1]) :=
  have hA : KindInvariant Kind.UniLower (!![1, 0; 3, 1] : Matrix (Fin 2) (Fin 2) Int) := by
    intro i j
    fin_cases i <;> fin_cases j <;> simp
  have hB : KindInvariant Kind.UniLower (!![1, 0; 5, 1] : Matrix (Fin 2) (Fin 2) Int) := by
    intro i j
    fin_cases i <;> fin_cases j <;> simp
  ⟨hA, hB, (MultTrait_UniLowerMatrix_kind_sound sampleLibrary
    (TypeExpr.DynamicMatrix (TypeExpr.numeric 0) false)
    (TypeExpr.DynamicMatrix (TypeExpr.numeric 0) false) false true false true _ _ hA hB).2⟩

/-- C24: the sum of two unilower matrix types resolves to a type of kind Lower, and for all
n x n matrices A and B that are zero strictly above the diagonal and one on it, A + B is
zero strictly above the diagonal and has 2 times the identity on the diagonal; so for
n >= 1 and 2 different from 1 the sum is lower and not unilower. -/
theorem AddTrait_UniLowerMatrix_kind_sound {n : Nat} {R : Type} [Semiring R] (L : Library)
    (MT1 MT2 : TypeExpr) (SO1 DF1 SO2 DF2 : Bool) (A B : Matrix (Fin n) (Fin n) R)
    (hA : KindInvariant Kind.UniLower A) (hB : KindInvariant Kind.UniLower B) :
    AddTrait L (.UniLowerMatrix MT1 SO1 DF1) (.UniLowerMatrix MT2 SO2 DF2) =
      some (L.lowerMatrix (L.AddTrait MT1 MT2)) ∧
    KindInvariant (kindOf (L.lowerMatrix (L.AddTrait MT1 MT2))) (A + B) ∧
    (∀ i, (A + B) i i = 2 * 1) ∧
    (1 ≤ n → (2 : R) ≠ 1 → ¬ KindInvariant Kind.UniLower (A + B)) := by
  have hdiag : ∀ i, (A + B) i i = 2 * 1 := by
    intro i
    rw [Matrix.add_apply, (hA i i).2 rfl, (hB i i).2 rfl, mul_one, one_add_one_eq_two]
  refine ⟨rfl, ?_, hdiag, ?_⟩
  · intro i j hij
    rw [Matrix.add_apply, (hA i j).1 hij, (hB i j).1 hij, add_zero]
  · intro hn h2 hU
    have h := (hU ⟨0, hn⟩ ⟨0, hn⟩).2 rfl
    rw [hdiag, mul_one] at h
    exact h2 h

/-- C24 at a concrete input: the 2x2 integer matrices [[1,0],[3,1]] and [[1,0],[5,1]], whose
sum has 2 on the diagonal and is not unilower. -/
theorem AddTrait_UniLowerMatrix_kind_sound_witness :
    KindInvariant Kind.Lower
      ((!![1, 0; 3, 1] : Matrix (Fin 2) (Fin 2) Int) + !![1, 0; 5, 1]) ∧
    ¬ KindInvariant Kind.UniLower
      ((!![1, 0; 3, 1] : Matrix (Fin 2) (Fin 2) Int) + !![1, 0; 5, 1]) :=
  have hA : KindInvariant Kind.UniLower (!![1, 0; 3, 1] : Matrix (Fin 2) (Fin 2) Int) := by
    intro i j
    fin_cases i <;> fin_cases j <;> simp
  have hB : KindInvariant Kind.UniLower (!![1, 0; 5, 1] : Matrix (Fin 2) (Fin 2) Int) := by
    intro i j
    fin_cases i <;> fin_cases j <;> simp
  have h := AddTrait_UniLowerMatrix_kind_sound sampleLibrary
    (TypeExpr.DynamicMatrix (TypeExpr.numeric 0) false)
    (TypeExpr.DynamicMatrix (TypeExpr.numeric 0) false) false true false true _ _ hA hB
  ⟨h.2.1, h.2.2.2 (by decide) (by decide)⟩

end blaze

namespace blaze

/-! ## Default state, clear, reset and construction -/

theorem isIdentity_iff {α : Type} (E : Shims α) (m : DenseMatrix α) :
    isIdentity E m = true ↔ IsIdentityMatrix E m := by
  unfold isIdentity IsIdentityMatrix
  by_cases hsq : m.rows = m.columns
  · have hne : (m.rows != m.columns) = false := by simp [hsq]
    simp only [hne, Bool.false_eq_true, if_false, forRange_eq_true]
    constructor
    · intro h
      refine ⟨hsq, fun i j hi hj => ?_⟩
      have hij := h i (Nat.zero_le _) hi j (Nat.zero_le _) hj
      constructor
      · intro e
        simpa only [e, if_true] using hij
      · intro e
        simpa only [e, if_false] using hij
    · rintro ⟨_, h⟩ i _ hi j _ hj
      by_cases e : i = j
      · subst e
        simp only [if_true]
        exact (h i i hi hj).1 rfl
      · simp only [e, if_false]
        exact (h i j hi hj).2 e
  · have hne : (m.rows != m.columns) = true := by simp [hsq]
    simp only [hne, if_true, Bool.false_eq_true, false_iff]
    rintro ⟨h, _⟩
    exact hsq h

theorem isUniLower_iff {α : Type} (E : Shims α) (p : DenseMatrix α) :
    isUniLower E p = true ↔ IsUniLowerInv E p := by
  unfold isUniLower IsUniLowerInv
  by_cases hsq : p.rows = p.columns
  · have hne : (p.rows != p.columns) = false := by simp [hsq]
    simp only [hne, Bool.false_eq_true, if_false, forRange_eq_true]
    constructor
    · intro h
      refine ⟨hsq, fun i j hi hj => ?_⟩
      have hi1 := h i (Nat.zero_le _) hi
      cases ho : E.isOne (p.get i i) with
      | false => simp [ho] at hi1
      | true =>
        simp only [ho, Bool.not_true, Bool.false_eq_true, if_false, forRange_eq_true] at hi1
        exact ⟨fun hij => hi1 j (by omega) hj, fun e => by rw [← e]; exact ho⟩
    · rintro ⟨_, h⟩ i _ hi
      have ho : E.isOne (p.get i i) = true := (h i i hi (by omega)).2 rfl
      simp only [ho, Bool.not_true, Bool.false_eq_true, if_false, forRange_eq_true]
      intro j hj1 hj2
      exact (h i j hi hj2).1 (by omega)
  · have hne : (p.rows != p.columns) = true := by simp [hsq]
    simp only [hne, if_true, Bool.false_eq_true, false_iff]
    rintro ⟨h, _⟩
    exact hsq h

/-- C25: over resizable storage `isDefault` returns true exactly when the matrix has zero
rows, over fixed-size storage exactly when the matrix is the identity matrix of its current
size; a matrix with at least one row over resizable storage is not in default state, the
identity included. -/
theorem isDefault_UniLowerMatrix {α : Type} (E : Shims α) (m : UniLowerMatrix α) :
    (UniLowerMatrix.isDefault E true m = true ↔ m.rows = 0) ∧
    (UniLowerMatrix.isDefault E false m = true ↔ IsIdentityMatrix E m.matrix_) ∧
    (m.rows ≠ 0 → UniLowerMatrix.isDefault E true m = false) := by
  refine ⟨?_, ?_, ?_⟩
  · simp [UniLowerMatrix.isDefault, isDefault_backend_TrueType]
  · simp only [UniLowerMatrix.isDefault, isDefault_backend_FalseType, Bool.false_eq_true,
      if_false]
    exact isIdentity_iff E m.matrix_
  · intro h
    simp [UniLowerMatrix.isDefault, isDefault_backend_TrueType, h]

/-- C25 at a concrete input: the 3x3 identity is not in default state over resizable storage
and is in default state over fixed-size storage. -/
theorem isDefault_UniLowerMatrix_witness :
    (UniLowerMatrix.mk (identityMatrix 3)).rows ≠ 0 ∧
    UniLowerMatrix.isDefault intShims true ⟨identityMatrix 3⟩ = false ∧
    UniLowerMatrix.isDefault intShims false ⟨identityMatrix 3⟩ = true :=
  ⟨by decide,
    (isDefault_UniLowerMatrix intShims ⟨identityMatrix 3⟩).2.2 (by decide), by decide⟩

/-- C26: after `clear` the matrix has zero rows and zero columns, and `isDefault` over
resizable storage returns true. -/
theorem clear_UniLowerMatrix {α : Type} (E : Shims α) (m : UniLowerMatrix α) :
    (clear m).rows = 0 ∧ (clear m).columns = 0 ∧
    UniLowerMatrix.isDefault E true (clear m) = true :=
  ⟨rfl, rfl, rfl⟩

/-- C27: for a unilower matrix and an index `i`, `reset` on row `i` of a row-major
matrix gives the identity at `(i,i)`, the default value at every other element of row `i`
and leaves every other row as it was; the result still satisfies the unit-lower
invariant. -/
theorem reset_row_UniLowerMatrix {α : Type} (E : Shims α) (z o : α) (m : UniLowerMatrix α)
    (i : Nat) (hz : E.isDefault z = true) (ho : E.isOne o = true)
    (hinv : IsUniLowerInv E m.matrix_) :
    (reset false z o m i).rows = m.rows ∧
    (reset false z o m i).columns = m.columns ∧
    (reset false z o m i).matrix_.get i i = o ∧
    (∀ j, j ≠ i → (reset false z o m i).matrix_.get i j = z) ∧
    (∀ r j, r ≠ i → (reset false z o m i).matrix_.get r j = m.matrix_.get r j) ∧
    IsUniLowerInv E (reset false z o m i).matrix_ := by
  refine ⟨rfl, rfl, ?_, ?_, ?_, ?_⟩
  · simp [reset, UniLowerMatrix.resetMember]
  · intro j hj
    have hj1 : ¬ (i = j) := fun e => hj e.symm
    simp [reset, UniLowerMatrix.resetMember, hj1]
  · intro r j hr
    simp [reset, UniLowerMatrix.resetMember, hr]
  · obtain ⟨hsq, hm⟩ := hinv
    refine ⟨hsq, fun r c hr hc => ?_⟩
    simp only [reset, UniLowerMatrix.resetMember, Bool.false_eq_true, if_false]
    by_cases hri : r = i
    · simp only [hri, if_true]
      constructor
      · intro hlt
        have : ¬ (i = c) := by omega
        simp only [this, if_false]
        exact hz
      · intro e
        simp only [e, if_true]
        exact ho
    · simp only [hri, if_false]
      exact hm r c hr hc

/-- C27 at a concrete input: row 1 of the integer unilower matrix [[1,0,0],[4,1,0],[5,6,1]] is
reset to [0,1,0] and rows 0 and 2 keep their values. -/
theorem reset_row_UniLowerMatrix_witness :
    (reset false (0 : Int) 1
        ⟨DenseMatrix.ofRows 0 3 3 [[1, 0, 0], [4, 1, 0], [5, 6, 1]]⟩ 1).matrix_.get 1 1 = 1 ∧
    (reset false (0 : Int) 1
        ⟨DenseMatrix.ofRows 0 3 3 [[1, 0, 0], [4, 1, 0], [5, 6, 1]]⟩ 1).matrix_.get 1 0 = 0 ∧
    (reset false (0 : Int) 1
        ⟨DenseMatrix.ofRows 0 3 3 [[1, 0, 0], [4, 1, 0], [5, 6, 1]]⟩ 1).matrix_.get 2 1 = 6 ∧
    IsUniLowerInv intShims
      (reset false (0 : Int) 1
        ⟨DenseMatrix.ofRows 0 3 3 [[1, 0, 0], [4, 1, 0], [5, 6, 1]]⟩ 1).matrix_ :=
  have h := reset_row_UniLowerMatrix intShims 0 1
    ⟨DenseMatrix.ofRows 0 3 3 [[1, 0, 0], [4, 1, 0], [5, 6, 1]]⟩ 1 (by decide) (by decide)
    ((isUniLower_iff intShims _).1 (by decide))
  ⟨h.2.2.1, h.2.2.2.1 0 (by decide), by decide, h.2.2.2.2.2⟩

/-- C28: the construction from a plain matrix succeeds, with the matrix as storage, exactly
when the matrix satisfies the unit-lower invariant; otherwise it reports the
invariant-violation error and constructs nothing. -/
theorem construct_UniLowerMatrix {α : Type} (E : Shims α) (p : DenseMatrix α) :
    (UniLowerMatrix.construct E p = Except.ok ⟨p⟩ ↔ IsUniLowerInv E p) ∧
    ((∃ m, UniLowerMatrix.construct E p = Except.ok m) ↔ IsUniLowerInv E p) ∧
    (¬ IsUniLowerInv E p →
      UniLowerMatrix.construct E p = Except.error AssignError.invariantViolation) := by
  rw [← isUniLower_iff]
  unfold UniLowerMatrix.construct
  cases isUniLower E p <;> simp

/-- C28 at a concrete input: the plain matrix [[1,2],[3,1]] has 2 above the diagonal and its
construction reports the error; the plain matrix [[1,0],[3,1]] is constructed. -/
theorem construct_UniLowerMatrix_witness :
    UniLowerMatrix.construct intShims (DenseMatrix.ofRows 0 2 2 [[1, 2], [3, 1]]) =
      Except.error AssignError.invariantViolation ∧
    IsUniLowerInv intShims (DenseMatrix.ofRows 0 2 2 [[1, 0], [3, 1]]) :=
  ⟨(construct_UniLowerMatrix intShims (DenseMatrix.ofRows 0 2 2 [[1, 2], [3, 1]])).2.2
      (fun h => by
        have := (isUniLower_iff intShims _).2 h
        revert this
        decide),
    (construct_UniLowerMatrix intShims (DenseMatrix.ofRows 0 2 2 [[1, 0], [3, 1]])).1.1 rfl⟩

/-! ## The `invcbrt` shim -/

/-- C29, the code at the failing input: zero lies in the documented range `[0..infinity]`,
and the user assertion `a > T(0)` of `invcbrt` fails for it, whatever `cbrt` is. -/
theorem invcbrt_zero_fails_assertion (cbrt : Rat → Rat) :
    (0 : Rat) ≥ 0 ∧ invcbrt cbrt 0 = none := by
  refine ⟨le_refl _, ?_⟩
  simp [invcbrt]

/-- C30: for `a > 0` and a `cbrt` that returns the exact cubic root of `a`, `invcbrt` returns
`1 / cbrt( a )`, and in exact arithmetic its cube times `a` is one. -/
theorem invcbrt_is_inverse_cubic_root {T : Type} [LinearOrderedField T] (cbrt : T → T) (a : T)
    (ha : a > 0) (hc : cbrt a * cbrt a * cbrt a = a) :
    invcbrt cbrt a = some (1 / cbrt a) ∧
    (1 / cbrt a) * (1 / cbrt a) * (1 / cbrt a) * a = 1 := by
  have hne : cbrt a ≠ 0 := by
    intro h0
    rw [h0] at hc
    simp only [mul_zero] at hc
    exact absurd hc.symm (ne_of_gt ha)
  refine ⟨by simp [invcbrt, ha], ?_⟩
  nth_rewrite 4 [← hc]
  field_simp

/-- C30 at a concrete input: over the rationals with `cbrt 8 = 2`, `invcbrt 8` is `1 / 2` and
`(1/2) * (1/2) * (1/2) * 8 = 1`. -/
theorem invcbrt_is_inverse_cubic_root_witness :
    invcbrt (fun _ => (2 : Rat)) 8 = some (1 / 2) ∧
    ((1 : Rat) / 2) * (1 / 2) * (1 / 2) * 8 = 1 :=
  invcbrt_is_inverse_cubic_root (fun _ => (2 : Rat)) 8 (by norm_num) (by norm_num)

end blaze

namespace blaze

/-! ## Instrumented runs: no fault -/

theorem ok_bind {β γ : Type} (x : β) (f : β → Except Fault γ) :
    (Except.ok x >>= f) = f x := rfl

theorem ite_pure_ok {β : Type} (c : Prop) [Decidable c] (a b : β) :
    (if c then (pure a : Except Fault β) else pure b) = Except.ok (if c then a else b) := by
  split <;> rfl

theorem checkedSub_of_le {a b : Nat} (h : b ≤ a) : checkedSub a b = Except.ok (a - b) := by
  simp [checkedSub, h]

theorem denseVector_read_of_lt {α : Type} (v : DenseVector α) {i : Nat} (h : i < v.size) :
    v.read i = Except.ok (v.get i) := by
  simp [DenseVector.read, h]

theorem denseMatrix_read_of_lt {α : Type} (m : DenseMatrix α) {i j : Nat} (hi : i < m.rows)
    (hj : j < m.columns) : m.read i j = Except.ok (m.get i j) := by
  simp [DenseMatrix.read, hi, hj]

theorem loopFromChecked_ok (body : Nat → Except Fault Bool) (f : Nat → Bool) (n i : Nat)
    (h : ∀ k, k < n → body (i + k) = Except.ok (f (i + k))) :
    loopFromChecked body n i = Except.ok (loopFrom f n i) := by
  induction n generalizing i with
  | zero => rfl
  | succ n ih =>
    have h0 : body i = Except.ok (f i) := by simpa using h 0 (by omega)
    have hrec := ih (i + 1) (fun k hk => by
      have := h (k + 1) (by omega)
      have e : i + 1 + k = i + (k + 1) := by omega
      rw [e]; exact this)
    simp only [loopFromChecked, loopFrom, h0]
    cases f i with
    | false => rfl
    | true => simpa using hrec

theorem forRangeChecked_ok (lo hi : Nat) (body : Nat → Except Fault Bool) (f : Nat → Bool)
    (h : ∀ i, lo ≤ i → i < hi → body i = Except.ok (f i)) :
    forRangeChecked lo hi body = Except.ok (forRange lo hi f) := by
  unfold forRangeChecked forRange
  exact loopFromChecked_ok body f (hi - lo) lo (fun k hk => h (lo + k) (by omega) (by omega))

theorem checked_DenseVector_false {α : Type} (E : Shims α) (lhs : UniLowerMatrix α)
    (rhs : DenseVector α) (row column : Nat) :
    tryAssignChecked_DenseVector_false E lhs rhs row column =
      Except.ok (tryAssign_DenseVector_false E lhs rhs row column) := by
  unfold tryAssignChecked_DenseVector_false tryAssign_DenseVector_false
  by_cases h : column < row
  · simp only [h, if_true]; rfl
  · have hle : row ≤ column := by omega
    have hloop := forRangeChecked_ok 0 (min (column - row) rhs.size)
      (fun i => do pure (E.isDefault (← rhs.read i))) (fun i => E.isDefault (rhs.get i))
      (fun i _ hi => by
        have : i < rhs.size := by omega
        simp only [denseVector_read_of_lt rhs this, ok_bind]; rfl)
    simp only [h, if_false, checkedSub_of_le hle, ok_bind, hloop]
    cases forRange 0 (min (column - row) rhs.size) (fun i => E.isDefault (rhs.get i)) with
    | false => rfl
    | true =>
      by_cases hd : column < row + rhs.size
      · have hmin : min (column - row) rhs.size = column - row := by omega
        have hlt : column - row < rhs.size := by omega
        simp only [hd, decide_True, hmin, denseVector_read_of_lt rhs hlt, Bool.not_true,
          Bool.false_eq_true,
          if_false, if_true, Bool.true_and, ok_bind]
        cases E.isOne (rhs.get (column - row)) <;> rfl
      · simp only [hd, decide_False, Bool.false_eq_true, if_false, Bool.not_true,
          Bool.false_and]
        rfl

theorem checked_DenseVector_true {α : Type} (E : Shims α) (lhs : UniLowerMatrix α)
    (rhs : DenseVector α) (row column : Nat) :
    tryAssignChecked_DenseVector_true E lhs rhs row column =
      Except.ok (tryAssign_DenseVector_true E lhs rhs row column) := by
  unfold tryAssignChecked_DenseVector_true tryAssign_DenseVector_true
  by_cases h : row ≥ column + rhs.size
  · simp only [h, if_true]; rfl
  · have hloop : ∀ lo, forRangeChecked lo rhs.size
        (fun i => do pure (E.isDefault (← rhs.read i))) =
        Except.ok (forRange lo rhs.size (fun i => E.isDefault (rhs.get i))) := fun lo =>
      forRangeChecked_ok lo rhs.size _ _ (fun i _ hi => by
        simp only [denseVector_read_of_lt rhs hi, ok_bind]; rfl)
    by_cases hd : row ≥ column
    · have hlt : row - column < rhs.size := by omega
      simp only [h, if_false, hd, decide_True, Bool.not_true, Bool.false_eq_true, if_true,
        checkedSub_of_le hd, ok_bind, pure_bind, denseVector_read_of_lt rhs hlt, Bool.true_and,
        hloop]
      cases E.isOne (rhs.get (row - column)) with
      | false => rfl
      | true =>
        simp only [Bool.not_true, Bool.false_eq_true, if_false, pure_bind, ok_bind]
        cases forRange (row - column + 1) rhs.size (fun i => E.isDefault (rhs.get i)) <;> rfl
    · simp only [h, if_false, hd, decide_False, Bool.not_false, if_true, Bool.false_eq_true,
        Bool.false_and, pure_bind, ok_bind, hloop]
      cases forRange 0 rhs.size (fun i => E.isDefault (rhs.get i)) <;> rfl

end blaze

namespace blaze

theorem checked_SparseVector_false {α : Type} (E : Shims α) (lhs : UniLowerMatrix α)
    (rhs : SparseVector α) (row column : Nat) :
    tryAssignChecked_SparseVector_false E lhs rhs row column =
      Except.ok (tryAssign_SparseVector_false E lhs rhs row column) := by
  unfold tryAssignChecked_SparseVector_false tryAssign_SparseVector_false
  by_cases h : column < row
  · simp only [h, if_true]; rfl
  · have hle : row ≤ column := by omega
    simp only [h, if_false, checkedSub_of_le hle, ok_bind]
    split_ifs <;> rfl

theorem checked_SparseVector_true {α : Type} (E : Shims α) (lhs : UniLowerMatrix α)
    (rhs : SparseVector α) (row column : Nat) :
    tryAssignChecked_SparseVector_true E lhs rhs row column =
      Except.ok (tryAssign_SparseVector_true E lhs rhs row column) := by
  unfold tryAssignChecked_SparseVector_true tryAssign_SparseVector_true
  by_cases h : row ≥ column + rhs.size
  · simp only [h, if_true]; rfl
  · by_cases hd : row ≥ column
    · simp only [h, if_false, hd, decide_True, if_true, checkedSub_of_le hd, ok_bind]
      split_ifs <;> rfl
    · simp only [h, if_false, hd, decide_False, Bool.false_eq_true, pure_bind]
      split_ifs <;> rfl

theorem checked_DenseMatrix_false {α : Type} (E : Shims α) (lhs : UniLowerMatrix α)
    (rhs : DenseMatrix α) (row column : Nat) :
    tryAssignChecked_DenseMatrix_false E lhs rhs row column =
      Except.ok (tryAssign_DenseMatrix_false E lhs rhs row column) := by
  unfold tryAssignChecked_DenseMatrix_false tryAssign_DenseMatrix_false
  by_cases h : row + 1 ≥ column + rhs.columns
  · simp only [h, if_true]; rfl
  · have hle : row ≤ column + rhs.columns := by omega
    simp only [h, if_false, checkedSub_of_le hle, ok_bind]
    refine forRangeChecked_ok _ _ _ _ (fun i _ hi => ?_)
    have hiM : i < rhs.rows := by omega
    have hin : ∀ lo, forRangeChecked lo rhs.columns
        (fun j => do pure (E.isDefault (← rhs.read i j))) =
        Except.ok (forRange lo rhs.columns (fun j => E.isDefault (rhs.get i j))) := fun lo =>
      forRangeChecked_ok lo rhs.columns _ _ (fun j _ hj => by
        simp only [denseMatrix_read_of_lt rhs hiM hj, ok_bind]; rfl)
    by_cases hd : row + i ≥ column
    · have hk : row + i - column < rhs.columns := by omega
      simp only [hd, decide_True, if_true, checkedSub_of_le hd, ok_bind, pure_bind,
        denseMatrix_read_of_lt rhs hiM hk, Bool.true_and, hin]
      cases E.isOne (rhs.get i (row + i - column)) <;> rfl
    · simp only [hd, decide_False, Bool.false_eq_true, if_false, pure_bind, Bool.false_and,
        hin]

theorem checked_DenseMatrix_true {α : Type} (E : Shims α) (lhs : UniLowerMatrix α)
    (rhs : DenseMatrix α) (row column : Nat) :
    tryAssignChecked_DenseMatrix_true E lhs rhs row column =
      Except.ok (tryAssign_DenseMatrix_true E lhs rhs row column) := by
  unfold tryAssignChecked_DenseMatrix_true tryAssign_DenseMatrix_true
  by_cases h : row + 1 ≥ column + rhs.columns
  · simp only [h, if_true]; rfl
  · have hjb : (if row < column then (pure 0 : Except Fault Nat) else checkedSub row column) =
        Except.ok (if row < column then 0 else row - column) := by
      by_cases hrc : row < column
      · simp only [hrc, if_true]; rfl
      · simp only [hrc, if_false]
        exact checkedSub_of_le (by omega)
    simp only [h, if_false, hjb, ok_bind]
    refine forRangeChecked_ok _ _ _ _ (fun j hj1 hj2 => ?_)
    have hle : row ≤ column + j := by
      split at hj1 <;> omega
    have hin : forRangeChecked 0 (min (column + j - row) rhs.rows)
        (fun i => do pure (E.isDefault (← rhs.read i j))) =
        Except.ok (forRange 0 (min (column + j - row) rhs.rows)
          (fun i => E.isDefault (rhs.get i j))) :=
      forRangeChecked_ok _ _ _ _ (fun i _ hi => by
        have hiM : i < rhs.rows := by omega
        simp only [denseMatrix_read_of_lt rhs hiM hj2, ok_bind]; rfl)
    simp only [checkedSub_of_le hle, ok_bind, hin]
    cases forRange 0 (min (column + j - row) rhs.rows) (fun i => E.isDefault (rhs.get i j)) with
    | false => rfl
    | true =>
      by_cases hd : column + j < row + rhs.rows
      · have hmin : min (column + j - row) rhs.rows = column + j - row := by omega
        have hlt : column + j - row < rhs.rows := by omega
        simp only [hd, decide_True, hmin, denseMatrix_read_of_lt rhs hlt hj2, Bool.not_true,
          Bool.false_eq_true, if_false, if_true, Bool.true_and, ok_bind]
        cases E.isOne (rhs.get (column + j - row) j) <;> rfl
      · simp only [hd, decide_False, Bool.false_eq_true, if_false, Bool.not_true,
          Bool.false_and]
        rfl

theorem checked_SparseMatrix_false {α : Type} (E : Shims α) (lhs : UniLowerMatrix α)
    (rhs : SparseMatrix α) (row column : Nat) :
    tryAssignChecked_SparseMatrix_false E lhs rhs row column =
      Except.ok (tryAssign_SparseMatrix_false E lhs rhs row column) := by
  unfold tryAssignChecked_SparseMatrix_false tryAssign_SparseMatrix_false
  by_cases h : row + 1 ≥ column + rhs.columns
  · simp only [h, if_true]; rfl
  · have hle : row ≤ column + rhs.columns := by omega
    simp only [h, if_false, checkedSub_of_le hle, ok_bind]
    refine forRangeChecked_ok _ _ _ _ (fun i _ hi => ?_)
    by_cases hd : row + i ≥ column
    · simp only [hd, decide_True, if_true, checkedSub_of_le hd, ok_bind]
      split_ifs <;> rfl
    · simp only [hd, decide_False, Bool.false_eq_true, if_false, pure_bind]
      split_ifs <;> rfl

theorem checked_SparseMatrix_true {α : Type} (E : Shims α) (lhs : UniLowerMatrix α)
    (rhs : SparseMatrix α) (row column : Nat) :
    tryAssignChecked_SparseMatrix_true E lhs rhs row column =
      Except.ok (tryAssign_SparseMatrix_true E lhs rhs row column) := by
  unfold tryAssignChecked_SparseMatrix_true tryAssign_SparseMatrix_true
  by_cases h : row + 1 ≥ column + rhs.columns
  · simp only [h, if_true]; rfl
  · have hjb : (if row < column then (pure 0 : Except Fault Nat) else checkedSub row column) =
        Except.ok (if row < column then 0 else row - column) := by
      by_cases hrc : row < column
      · simp only [hrc, if_true]; rfl
      · simp only [hrc, if_false]
        exact checkedSub_of_le (by omega)
    simp only [h, if_false, hjb, ok_bind]
    refine forRangeChecked_ok _ _ _ _ (fun j hj1 hj2 => ?_)
    have hle : row ≤ column + j := by
      split at hj1 <;> omega
    simp only [checkedSub_of_le hle, ok_bind]
    split_ifs <;> rfl

end blaze

namespace blaze

/-- C32: in the instrumented run of each of the four dense overloads no element read leaves
the right-hand side, at every offset: the run ends without a fault and with the result of
the overload, so `rhs[iend]`, `rhs[row-column]`, `rhs(i,row+i-column)` and `rhs(iend,j)` are
read with indices inside the right-hand side only. -/
theorem tryAssign_dense_reads_in_bounds {α : Type} (E : Shims α) (lhs : UniLowerMatrix α)
    (v : DenseVector α) (d : DenseMatrix α) (row column : Nat) :
    tryAssignChecked_DenseVector_false E lhs v row column =
      Except.ok (tryAssign_DenseVector_false E lhs v row column) ∧
    tryAssignChecked_DenseVector_true E lhs v row column =
      Except.ok (tryAssign_DenseVector_true E lhs v row column) ∧
    tryAssignChecked_DenseMatrix_false E lhs d row column =
      Except.ok (tryAssign_DenseMatrix_false E lhs d row column) ∧
    tryAssignChecked_DenseMatrix_true E lhs d row column =
      Except.ok (tryAssign_DenseMatrix_true E lhs d row column) :=
  ⟨checked_DenseVector_false E lhs v row column, checked_DenseVector_true E lhs v row column,
    checked_DenseMatrix_false E lhs d row column, checked_DenseMatrix_true E lhs d row column⟩

/-- C33: in the instrumented run of each of the eight overloads no `size_t` subtraction wraps
around, at every offset: `column - row`, `row - column`, `column + N - row`,
`row + i - column` and `column + j - row` are evaluated only where the minuend is at least
the subtrahend. -/
theorem tryAssign_subtractions_do_not_wrap {α : Type} (E : Shims α) (lhs : UniLowerMatrix α)
    (v : DenseVector α) (s : SparseVector α) (d : DenseMatrix α) (a : SparseMatrix α)
    (row column : Nat) :
    tryAssignChecked_DenseVector_false E lhs v row column ≠ Except.error Fault.wrapAround ∧
    tryAssignChecked_DenseVector_true E lhs v row column ≠ Except.error Fault.wrapAround ∧
    tryAssignChecked_SparseVector_false E lhs s row column ≠ Except.error Fault.wrapAround ∧
    tryAssignChecked_SparseVector_true E lhs s row column ≠ Except.error Fault.wrapAround ∧
    tryAssignChecked_DenseMatrix_false E lhs d row column ≠ Except.error Fault.wrapAround ∧
    tryAssignChecked_DenseMatrix_true E lhs d row column ≠ Except.error Fault.wrapAround ∧
    tryAssignChecked_SparseMatrix_false E lhs a row column ≠ Except.error Fault.wrapAround ∧
    tryAssignChecked_SparseMatrix_true E lhs a row column ≠ Except.error Fault.wrapAround := by
  rw [checked_DenseVector_false, checked_DenseVector_true, checked_SparseVector_false,
    checked_SparseVector_true, checked_DenseMatrix_false, checked_DenseMatrix_true,
    checked_SparseMatrix_false, checked_SparseMatrix_true]
  refine ⟨?_, ?_, ?_, ?_, ?_, ?_, ?_, ?_⟩ <;> exact fun h => Except.noConfusion h

end blaze

namespace blaze

/-! ## Matrix overloads: early exit or admissible block -/

theorem denseMatrix_false_admissible {α : Type} (E : Shims α) (lhs : UniLowerMatrix α)
    (rhs : DenseMatrix α) (row column : Nat) :
    tryAssign_DenseMatrix_false E lhs rhs row column = true ↔
      (row + 1 ≥ column + rhs.columns ∨ BlockAdmissible E rhs row column) := by
  rw [denseMatrix_false_rows, rows_admissible_iff]

theorem denseMatrix_true_admissible {α : Type} (E : Shims α) (lhs : UniLowerMatrix α)
    (rhs : DenseMatrix α) (row column : Nat) :
    tryAssign_DenseMatrix_true E lhs rhs row column = true ↔
      (row + 1 ≥ column + rhs.columns ∨ BlockAdmissible E rhs row column) := by
  rw [denseMatrix_true_columns, columns_admissible_iff]

theorem sparseMatrix_false_admissible {α : Type} (E : Shims α) (z : α)
    (hz0 : E.isDefault z = true) (hz1 : E.isOne z = false)
    (lhs : UniLowerMatrix α) (rhs : SparseMatrix α) (row column : Nat)
    (hwf : ∀ i, i < rhs.rows → WellFormed (rhs.line i) rhs.columns) :
    tryAssign_SparseMatrix_false E lhs rhs row column = true ↔
      (row + 1 ≥ column + rhs.columns ∨
        BlockAdmissible E (rhs.expandRowMajor z) row column) := by
  rw [sparseMatrix_false_rows, ← rows_admissible_iff E lhs (rhs.expandRowMajor z) row column]
  refine or_congr Iff.rfl (forall_congr' (fun i => ?_))
  refine imp_congr_right (fun hi => ?_)
  rw [sparseVector_true_iff E z hz0 hz1 lhs ⟨rhs.columns, rhs.line i⟩ (row + i) column
    (hwf i hi), denseVector_true_iff]
  rfl

theorem sparseMatrix_true_admissible {α : Type} (E : Shims α) (z : α)
    (hz0 : E.isDefault z = true) (hz1 : E.isOne z = false)
    (lhs : UniLowerMatrix α) (rhs : SparseMatrix α) (row column : Nat)
    (hwf : ∀ j, j < rhs.columns → WellFormed (rhs.line j) rhs.rows) :
    tryAssign_SparseMatrix_true E lhs rhs row column = true ↔
      (row + 1 ≥ column + rhs.columns ∨
        BlockAdmissible E (rhs.expandColumnMajor z) row column) := by
  rw [sparseMatrix_true_columns E lhs rhs row column hwf,
    ← columns_admissible_iff E lhs (rhs.expandColumnMajor z) row column]
  refine or_congr Iff.rfl (forall_congr' (fun j => ?_))
  refine imp_congr_right (fun hj => ?_)
  rw [sparseVector_false_iff E z hz0 hz1 lhs ⟨rhs.rows, rhs.line j⟩ row (column + j)
    (hwf j hj), denseVector_false_iff]
  rfl

/-! ## Independence of the target and of the values below the diagonal -/

theorem columnVectorRule_congr {α : Type} (E : Shims α) (v1 v2 : DenseVector α)
    (row column : Nat) (hsize : v1.size = v2.size)
    (hagree : ∀ k, k < v1.size → row + k ≤ column → v1.get k = v2.get k) :
    ColumnVectorRule E v1 row column ↔ ColumnVectorRule E v2 row column := by
  unfold ColumnVectorRule
  constructor
  · intro h k hk
    have hk1 : k < v1.size := by omega
    exact ⟨fun hlt => by rw [← hagree k hk1 (by omega)]; exact (h k hk1).1 hlt,
      fun heq => by rw [← hagree k hk1 (by omega)]; exact (h k hk1).2 heq⟩
  · intro h k hk
    have hk2 : k < v2.size := by omega
    exact ⟨fun hlt => by rw [hagree k hk (by omega)]; exact (h k hk2).1 hlt,
      fun heq => by rw [hagree k hk (by omega)]; exact (h k hk2).2 heq⟩

theorem rowVectorRule_congr {α : Type} (E : Shims α) (v1 v2 : DenseVector α)
    (row column : Nat) (hsize : v1.size = v2.size)
    (hagree : ∀ k, k < v1.size → row ≤ column + k → v1.get k = v2.get k) :
    RowVectorRule E v1 row column ↔ RowVectorRule E v2 row column := by
  unfold RowVectorRule
  constructor
  · intro h k hk
    have hk1 : k < v1.size := by omega
    exact ⟨fun hlt => by rw [← hagree k hk1 (by omega)]; exact (h k hk1).1 hlt,
      fun heq => by rw [← hagree k hk1 (by omega)]; exact (h k hk1).2 heq⟩
  · intro h k hk
    have hk2 : k < v2.size := by omega
    exact ⟨fun hlt => by rw [hagree k hk (by omega)]; exact (h k hk2).1 hlt,
      fun heq => by rw [hagree k hk (by omega)]; exact (h k hk2).2 heq⟩

theorem blockAdmissible_congr {α : Type} (E : Shims α) (d1 d2 : DenseMatrix α)
    (row column : Nat) (hrows : d1.rows = d2.rows) (hcols : d1.columns = d2.columns)
    (hagree : ∀ i j, i < d1.rows → j < d1.columns → row + i ≤ column + j →
      d1.get i j = d2.get i j) :
    BlockAdmissible E d1 row column ↔ BlockAdmissible E d2 row column := by
  unfold BlockAdmissible
  constructor
  · intro h i j hi hj
    have hi1 : i < d1.rows := by omega
    have hj1 : j < d1.columns := by omega
    exact ⟨fun hlt => by rw [← hagree i j hi1 hj1 (by omega)]; exact (h i j hi1 hj1).1 hlt,
      fun heq => by rw [← hagree i j hi1 hj1 (by omega)]; exact (h i j hi1 hj1).2 heq⟩
  · intro h i j hi hj
    have hi2 : i < d2.rows := by omega
    have hj2 : j < d2.columns := by omega
    exact ⟨fun hlt => by rw [hagree i j hi hj (by omega)]; exact (h i j hi2 hj2).1 hlt,
      fun heq => by rw [hagree i j hi hj (by omega)]; exact (h i j hi2 hj2).2 heq⟩

end blaze

namespace blaze

/-- C34: the result of each of the eight overloads is the same for any two targets and any two
right-hand sides of the same shape that agree on every position landing on or above the
diagonal (for sparse right-hand sides: well formed, compared through their dense expansion
with an absent value that is default and not one). -/
theorem tryAssign_independent_of_target_and_lower_part {α : Type} (E : Shims α) (z : α)
    (lhs1 lhs2 : UniLowerMatrix α) (v1 v2 : DenseVector α) (s1 s2 : SparseVector α)
    (d1 d2 : DenseMatrix α) (a1 a2 : SparseMatrix α) (row column : Nat)
    (hz0 : E.isDefault z = true) (hz1 : E.isOne z = false) :
    (v1.size = v2.size →
      (∀ k, k < v1.size → row + k ≤ column → v1.get k = v2.get k) →
      tryAssign_DenseVector_false E lhs1 v1 row column =
        tryAssign_DenseVector_false E lhs2 v2 row column) ∧
    (v1.size = v2.size →
      (∀ k, k < v1.size → row ≤ column + k → v1.get k = v2.get k) →
      tryAssign_DenseVector_true E lhs1 v1 row column =
        tryAssign_DenseVector_true E lhs2 v2 row column) ∧
    (s1.size = s2.size → WellFormed s1.elements s1.size → WellFormed s2.elements s2.size →
      (∀ k, k < s1.size → row + k ≤ column → (s1.expand z).get k = (s2.expand z).get k) →
      tryAssign_SparseVector_false E lhs1 s1 row column =
        tryAssign_SparseVector_false E lhs2 s2 row column) ∧
    (s1.size = s2.size → WellFormed s1.elements s1.size → WellFormed s2.elements s2.size →
      (∀ k, k < s1.size → row ≤ column + k → (s1.expand z).get k = (s2.expand z).get k) →
      tryAssign_SparseVector_true E lhs1 s1 row column =
        tryAssign_SparseVector_true E lhs2 s2 row column) ∧
    (d1.rows = d2.rows → d1.columns = d2.columns →
      (∀ i j, i < d1.rows → j < d1.columns → row + i ≤ column + j →
        d1.get i j = d2.get i j) →
      tryAssign_DenseMatrix_false E lhs1 d1 row column =
          tryAssign_DenseMatrix_false E lhs2 d2 row column ∧
        tryAssign_DenseMatrix_true E lhs1 d1 row column =
          tryAssign_DenseMatrix_true E lhs2 d2 row column) ∧
    (a1.rows = a2.rows → a1.columns = a2.columns →
      (∀ i, i < a1.rows → WellFormed (a1.line i) a1.columns) →
      (∀ i, i < a2.rows → WellFormed (a2.line i) a2.columns) →
      (∀ i j, i < a1.rows → j < a1.columns → row + i ≤ column + j →
        (a1.expandRowMajor z).get i j = (a2.expandRowMajor z).get i j) →
      tryAssign_SparseMatrix_false E lhs1 a1 row column =
        tryAssign_SparseMatrix_false E lhs2 a2 row column) ∧
    (a1.rows = a2.rows → a1.columns = a2.columns →
      (∀ j, j < a1.columns → WellFormed (a1.line j) a1.rows) →
      (∀ j, j < a2.columns → WellFormed (a2.line j) a2.rows) →
      (∀ i j, i < a1.rows → j < a1.columns → row + i ≤ column + j →
        (a1.expandColumnMajor z).get i j = (a2.expandColumnMajor z).get i j) →
      tryAssign_SparseMatrix_true E lhs1 a1 row column =
        tryAssign_SparseMatrix_true E lhs2 a2 row column) := by
  refine ⟨?_, ?_, ?_, ?_, ?_, ?_, ?_⟩
  · intro hsize hagree
    rw [Bool.eq_iff_iff, denseVector_false_iff, denseVector_false_iff]
    exact columnVectorRule_congr E v1 v2 row column hsize hagree
  · intro hsize hagree
    rw [Bool.eq_iff_iff, denseVector_true_iff, denseVector_true_iff]
    exact rowVectorRule_congr E v1 v2 row column hsize hagree
  · intro hsize hw1 hw2 hagree
    rw [Bool.eq_iff_iff, sparseVector_false_iff E z hz0 hz1 lhs1 s1 row column hw1,
      sparseVector_false_iff E z hz0 hz1 lhs2 s2 row column hw2]
    exact columnVectorRule_congr E (s1.expand z) (s2.expand z) row column hsize hagree
  · intro hsize hw1 hw2 hagree
    rw [Bool.eq_iff_iff, sparseVector_true_iff E z hz0 hz1 lhs1 s1 row column hw1,
      sparseVector_true_iff E z hz0 hz1 lhs2 s2 row column hw2]
    exact rowVectorRule_congr E (s1.expand z) (s2.expand z) row column hsize hagree
  · intro hrows hcols hagree
    have hb := blockAdmissible_congr E d1 d2 row column hrows hcols hagree
    constructor
    · rw [Bool.eq_iff_iff, denseMatrix_false_admissible, denseMatrix_false_admissible, hcols,
        hb]
    · rw [Bool.eq_iff_iff, denseMatrix_true_admissible, denseMatrix_true_admissible, hcols,
        hb]
  · intro hrows hcols hw1 hw2 hagree
    have hb := blockAdmissible_congr E (a1.expandRowMajor z) (a2.expandRowMajor z) row column
      hrows hcols hagree
    rw [Bool.eq_iff_iff, sparseMatrix_false_admissible E z hz0 hz1 lhs1 a1 row column hw1,
      sparseMatrix_false_admissible E z hz0 hz1 lhs2 a2 row column hw2, hcols, hb]
  · intro hrows hcols hw1 hw2 hagree
    have hb := blockAdmissible_congr E (a1.expandColumnMajor z) (a2.expandColumnMajor z) row
      column hrows hcols hagree
    rw [Bool.eq_iff_iff, sparseMatrix_true_admissible E z hz0 hz1 lhs1 a1 row column hw1,
      sparseMatrix_true_admissible E z hz0 hz1 lhs2 a2 row column hw2, hcols, hb]

/-- C34 at a concrete input: at offset (1,1) the 2x2 blocks [[1,0],[4,1]] and [[1,0],[9,1]],
which differ only below the diagonal, get the same result from the row-major overload on
two different targets. -/
theorem tryAssign_independent_of_target_and_lower_part_witness :
    tryAssign_DenseMatrix_false intShims ⟨identityMatrix 3⟩
        (DenseMatrix.ofRows 0 2 2 [[1, 0], [4, 1]]) 1 1 =
      tryAssign_DenseMatrix_false intShims
        ⟨DenseMatrix.ofRows 0 3 3 [[1, 0, 0], [2, 1, 0], [3, 4, 1]]⟩
        (DenseMatrix.ofRows 0 2 2 [[1, 0], [9, 1]]) 1 1 :=
  ((tryAssign_independent_of_target_and_lower_part intShims 0 ⟨identityMatrix 3⟩
    ⟨DenseMatrix.ofRows 0 3 3 [[1, 0, 0], [2, 1, 0], [3, 4, 1]]⟩
    (DenseVector.ofList 0 []) (DenseVector.ofList 0 [])
    (SparseVector.ofList 0 []) (SparseVector.ofList 0 [])
    (DenseMatrix.ofRows 0 2 2 [[1, 0], [4, 1]]) (DenseMatrix.ofRows 0 2 2 [[1, 0], [9, 1]])
    (SparseMatrix.ofLines 0 0 []) (SparseMatrix.ofLines 0 0 []) 1 1
    (by decide) (by decide)).2.2.2.2.1 rfl rfl (fun i j hi hj hij => by
      have hi2 : i < 2 := hi
      have hj2 : j < 2 := hj
      interval_cases i <;> interval_cases j <;> first | rfl | omega)).1

/-- C36: for every dense right-hand side and every offset the row-major and the column-major
dense overload return the same boolean. -/
theorem tryAssign_DenseMatrix_storage_order_irrelevant {α : Type} (E : Shims α)
    (lhs : UniLowerMatrix α) (rhs : DenseMatrix α) (row column : Nat) :
    tryAssign_DenseMatrix_false E lhs rhs row column =
      tryAssign_DenseMatrix_true E lhs rhs row column := by
  rw [Bool.eq_iff_iff, denseMatrix_false_admissible, denseMatrix_true_admissible]

end blaze

namespace blaze

/-! ## Accepted blocks -/

theorem blockAdmissible_of_isUniLowerInv {α : Type} (E : Shims α) (d : DenseMatrix α) (k : Nat)
    (h : IsUniLowerInv E d) : BlockAdmissible E d k k := by
  intro i j hi hj
  exact ⟨fun hlt => (h.2 i j hi hj).1 (by omega), fun heq => (h.2 i j hi hj).2 (by omega)⟩

theorem default_above_diagonal_of_accepted {α : Type} (E : Shims α) (d : DenseMatrix α)
    (row column : Nat)
    (h : row + 1 ≥ column + d.columns ∨ BlockAdmissible E d row column) :
    ∀ i j, i < d.rows → j < d.columns → row + i < column + j →
      E.isDefault (d.get i j) = true := by
  intro i j hi hj hlt
  rcases h with h | h
  · omega
  · exact (h i j hi hj).1 hlt

/-- C35: a square right-hand side that itself satisfies the unit-lower invariant is accepted
at every diagonal offset `(k, k)` by the four matrix overloads (for the sparse ones: well
formed, with the invariant on the dense expansion). -/
theorem tryAssign_uniLower_block_on_diagonal {α : Type} (E : Shims α) (z : α)
    (lhs : UniLowerMatrix α) (d : DenseMatrix α) (a b : SparseMatrix α) (k : Nat)
    (hz0 : E.isDefault z = true) (hz1 : E.isOne z = false)
    (hd : IsUniLowerInv E d)
    (hawf : ∀ i, i < a.rows → WellFormed (a.line i) a.columns)
    (ha : IsUniLowerInv E (a.expandRowMajor z))
    (hbwf : ∀ j, j < b.columns → WellFormed (b.line j) b.rows)
    (hb : IsUniLowerInv E (b.expandColumnMajor z)) :
    tryAssign_DenseMatrix_false E lhs d k k = true ∧
    tryAssign_DenseMatrix_true E lhs d k k = true ∧
    tryAssign_SparseMatrix_false E lhs a k k = true ∧
    tryAssign_SparseMatrix_true E lhs b k k = true := by
  refine ⟨?_, ?_, ?_, ?_⟩
  · rw [denseMatrix_false_admissible]
    exact Or.inr (blockAdmissible_of_isUniLowerInv E d k hd)
  · rw [denseMatrix_true_admissible]
    exact Or.inr (blockAdmissible_of_isUniLowerInv E d k hd)
  · rw [sparseMatrix_false_admissible E z hz0 hz1 lhs a k k hawf]
    exact Or.inr (blockAdmissible_of_isUniLowerInv E _ k ha)
  · rw [sparseMatrix_true_admissible E z hz0 hz1 lhs b k k hbwf]
    exact Or.inr (blockAdmissible_of_isUniLowerInv E _ k hb)

/-- C35 at a concrete input: the 3x3 identity, as a dense matrix (the own contents of the
target read back) and as a sparse matrix with one stored entry per line, is accepted at
(0,0) of the 3x3 identity. -/
theorem tryAssign_uniLower_block_on_diagonal_witness :
    tryAssign_DenseMatrix_false intShims ⟨identityMatrix 3⟩ (identityMatrix 3) 0 0 = true ∧
    tryAssign_DenseMatrix_true intShims ⟨identityMatrix 3⟩ (identityMatrix 3) 0 0 = true ∧
    tryAssign_SparseMatrix_false intShims ⟨identityMatrix 3⟩
        (SparseMatrix.ofLines 3 3 [[(0, 1)], [(1, 1)], [(2, 1)]]) 0 0 = true ∧
    tryAssign_SparseMatrix_true intShims ⟨identityMatrix 3⟩
        (SparseMatrix.ofLines 3 3 [[(0, 1)], [(1, 1)], [(2, 1)]]) 0 0 = true :=
  tryAssign_uniLower_block_on_diagonal intShims 0 ⟨identityMatrix 3⟩ (identityMatrix 3)
    (SparseMatrix.ofLines 3 3 [[(0, 1)], [(1, 1)], [(2, 1)]])
    (SparseMatrix.ofLines 3 3 [[(0, 1)], [(1, 1)], [(2, 1)]]) 0 (by decide) (by decide)
    (identityMatrix_isUniLowerInv 3)
    (fun i hi => by
      have hi3 : i < 3 := hi
      interval_cases i <;> exact ⟨by decide, by decide⟩)
    ((isUniLower_iff intShims _).1 (by decide))
    (fun j hj => by
      have hj3 : j < 3 := hj
      interval_cases j <;> exact ⟨by decide, by decide⟩)
    ((isUniLower_iff intShims _).1 (by decide))

/-- C37: whenever one of the four matrix overloads returns true, every element of the
right-hand side that lands strictly above the diagonal (`row + i < column + j`) is default
(for the sparse overloads: well formed right-hand sides, elements of the dense
expansion). -/
theorem tryAssign_matrix_accepted_default_above_diagonal {α : Type} (E : Shims α) (z : α)
    (lhs : UniLowerMatrix α) (d : DenseMatrix α) (a b : SparseMatrix α) (row column : Nat)
    (hz0 : E.isDefault z = true) (hz1 : E.isOne z = false)
    (hawf : ∀ i, i < a.rows → WellFormed (a.line i) a.columns)
    (hbwf : ∀ j, j < b.columns → WellFormed (b.line j) b.rows) :
    (tryAssign_DenseMatrix_false E lhs d row column = true →
      ∀ i j, i < d.rows → j < d.columns → row + i < column + j →
        E.isDefault (d.get i j) = true) ∧
    (tryAssign_DenseMatrix_true E lhs d row column = true →
      ∀ i j, i < d.rows → j < d.columns → row + i < column + j →
        E.isDefault (d.get i j) = true) ∧
    (tryAssign_SparseMatrix_false E lhs a row column = true →
      ∀ i j, i < a.rows → j < a.columns → row + i < column + j →
        E.isDefault ((a.expandRowMajor z).get i j) = true) ∧
    (tryAssign_SparseMatrix_true E lhs b row column = true →
      ∀ i j, i < b.rows → j < b.columns → row + i < column + j →
        E.isDefault ((b.expandColumnMajor z).get i j) = true) := by
  refine ⟨fun h => ?_, fun h => ?_, fun h => ?_, fun h => ?_⟩
  · exact default_above_diagonal_of_accepted E d row column
      ((denseMatrix_false_admissible E lhs d row column).1 h)
  · exact default_above_diagonal_of_accepted E d row column
      ((denseMatrix_true_admissible E lhs d row column).1 h)
  · exact default_above_diagonal_of_accepted E (a.expandRowMajor z) row column
      ((sparseMatrix_false_admissible E z hz0 hz1 lhs a row column hawf).1 h)
  · exact default_above_diagonal_of_accepted E (b.expandColumnMajor z) row column
      ((sparseMatrix_true_admissible E z hz0 hz1 lhs b row column hbwf).1 h)

/-- C37 at a concrete input: the 2x2 block [[0,0],[1,0]] at (0,1) of the 3x3 identity is
accepted by the row-major dense overload, and its elements (0,0), (0,1) and (1,1), which land
strictly above the diagonal, are default. -/
theorem tryAssign_matrix_accepted_default_above_diagonal_witness :
    tryAssign_DenseMatrix_false intShims ⟨identityMatrix 3⟩
        (DenseMatrix.ofRows 0 2 2 [[0, 0], [1, 0]]) 0 1 = true ∧
    ∀ i j, i < 2 → j < 2 → 0 + i < 1 + j →
      intShims.isDefault ((DenseMatrix.ofRows 0 2 2 [[0, 0], [1, 0]]).get i j) = true :=
  ⟨by decide,
    (tryAssign_matrix_accepted_default_above_diagonal intShims 0 ⟨identityMatrix 3⟩
      (DenseMatrix.ofRows 0 2 2 [[0, 0], [1, 0]]) (SparseMatrix.ofLines 0 0 [])
      (SparseMatrix.ofLines 0 0 []) 0 1 (by decide) (by decide)
      (fun i hi => absurd hi (Nat.not_lt_zero i))
      (fun j hj => absurd hj (Nat.not_lt_zero j))).1 (by decide)⟩

end blaze
